import Mathlib

/-!
Verification development for the Blu-Edge document-analysis application.

The TypeScript sources are embedded shallowly: JS strings become `List Char`
(the inputs at stake are ASCII plus the currency signs, where JS UTF-16 length
agrees with the character count), JS numbers become `ℚ` (or `ℝ` where the code
divides by square roots), fallible code returns `Except`, the database and the
external embedding / chat-completion / text-splitting services are passed in as
explicit stores and function parameters, and the hand-written regular
expressions of the source are compiled by hand into executable matchers that
follow the JS backtracking semantics of the concrete patterns.
-/

namespace BlueEdge

/-- Character list standing for a JS string. -/
abbrev Str := List Char

/-- Characters matched by the regex escape `\s` (the source texts only ever
contain the ASCII whitespace forms). -/
def isSpaceJS (c : Char) : Bool :=
  c == ' ' || c == '\t' || c == '\n' || c == '\r' || c == '\x0b' || c == '\x0c'

/-- Characters matched by the regex escape `\d`. -/
def isDigitJS (c : Char) : Bool :=
  '0' ≤ c && c ≤ '9'

/-- Characters matched by the regex escape `\w` (word characters). -/
def isWordJS (c : Char) : Bool :=
  ('a' ≤ c && c ≤ 'z') || ('A' ≤ c && c ≤ 'Z') || isDigitJS c || c == '_'

/-- ASCII letters, what `[A-Z]` or `[a-z]` match under the `i` flag. -/
def isLetterJS (c : Char) : Bool :=
  ('a' ≤ c && c ≤ 'z') || ('A' ≤ c && c ≤ 'Z')

/-- The currency signs of the source's `numberRegex`: `£`, `$`, `€`. -/
def isCurrency (c : Char) : Bool :=
  c == '£' || c == '$' || c == '€'

/-- JS `toLowerCase` on the character sets in play (ASCII letters). -/
def lowerStr (s : Str) : Str :=
  s.map Char.toLower

/-- Character at an index, as regex matchers read a JS string. -/
def charAt (s : Str) (i : Nat) : Option Char :=
  s.get? i

/-- Test of a character class at an index; out of range counts as a failure. -/
def testAt (p : Char → Bool) (s : Str) (i : Nat) : Bool :=
  match charAt s i with
  | some c => p c
  | none => false

/-- Length of the run of characters satisfying `p` starting at index `i`. -/
def runLen (p : Char → Bool) (s : Str) (i : Nat) : Nat :=
  ((s.drop i).takeWhile p).length

/-- Slice `s[a..b)` of a character list. -/
def slice (s : Str) (a b : Nat) : Str :=
  (s.drop a).take (b - a)

/-- JS `String.prototype.substring` with its clamping and swapping of the two
indices. -/
def substringJS (s : Str) (a b : Nat) : Str :=
  let a' := min a s.length
  let b' := min b s.length
  slice s (min a' b') (max a' b')

/-- Whether `w` occurs at index `i` of `s`. -/
def atIndex (w : Str) (s : Str) (i : Nat) : Bool :=
  w.isPrefixOf (s.drop i)

/-- Whether `w` occurs, case-insensitively, at index `i` of `s`. -/
def atIndexCI (w : Str) (s : Str) (i : Nat) : Bool :=
  (lowerStr w).isPrefixOf (lowerStr (s.drop i))

/-- JS `String.prototype.indexOf` for a substring (smallest index at which the
needle occurs). -/
def indexOfSub (s sub : Str) : Option Nat :=
  (List.range (s.length + 1)).find? (fun i => atIndex sub s i)

/-- JS `String.prototype.includes`. -/
def hasSubstr (s sub : Str) : Bool :=
  (indexOfSub s sub).isSome

/-- JS `String.prototype.trim` on the whitespace forms in play. -/
def trimJS (s : Str) : Str :=
  ((s.dropWhile isSpaceJS).reverse.dropWhile isSpaceJS).reverse

/-- JS `String.prototype.endsWith`. -/
def endsWithJS (s w : Str) : Bool :=
  w.isPrefixOf (s.reverse.take w.length).reverse && decide (w.length ≤ s.length)

/-- JS `String.prototype.split` with a non-empty string separator
(`fuel` bounds the recursion; `s.length + 1` always suffices). -/
def splitSubAux (sep : Str) (fuel : Nat) (s : Str) : List Str :=
  match fuel with
  | 0 => [s]
  | fuel + 1 =>
    match indexOfSub s sep with
    | none => [s]
    | some i => slice s 0 i :: splitSubAux sep fuel (s.drop (i + sep.length))

/-- JS `String.prototype.split` on a non-empty separator. -/
def splitSub (s sep : Str) : List Str :=
  splitSubAux sep (s.length + 1) s

/-- JS `Array.prototype.join` on strings. -/
def joinSep (sep : Str) : List Str → Str
  | [] => []
  | [x] => x
  | x :: y :: rest => x ++ sep ++ joinSep sep (y :: rest)

/-- JS `replace(/,/g, '')`-style removal of every occurrence of one character. -/
def removeChar (c : Char) (s : Str) : Str :=
  s.filter (fun x => x != c)

/-- JS `replace(/[£$€]\s*/g, '')`: every currency sign is removed together with
the whitespace run that follows it. -/
def stripCurrencyRuns (fuel : Nat) (s : Str) : Str :=
  match fuel, s with
  | 0, s => s
  | _, [] => []
  | fuel + 1, c :: rest =>
    if isCurrency c then stripCurrencyRuns fuel (rest.dropWhile isSpaceJS)
    else c :: stripCurrencyRuns fuel rest

/-- Numeric value of a digit character. -/
def digitVal (c : Char) : Nat :=
  c.toNat - 48

/-- Value of a digit run read in base 10. -/
def natOfDigits (ds : Str) : Nat :=
  ds.foldl (fun acc c => 10 * acc + digitVal c) 0

/-- Model of JS `parseFloat` on the decimal literals the extraction regexes can
produce (optional leading whitespace and sign, an integer part and/or a
fractional part; the matched texts never carry an exponent). `none` stands for
`NaN`. -/
def parseFloatQ (s : Str) : Option ℚ :=
  let t := s.dropWhile isSpaceJS
  let sign : ℚ := if t.head? = some '-' then -1 else 1
  let t1 := if t.head? = some '-' || t.head? = some '+' then t.drop 1 else t
  let ip := t1.takeWhile isDigitJS
  let r1 := t1.drop ip.length
  if ip.isEmpty then
    match r1 with
    | '.' :: r2 =>
      let fp := r2.takeWhile isDigitJS
      if fp.isEmpty then none
      else some (sign * ((natOfDigits fp : ℚ) / ((10 : ℚ) ^ fp.length)))
    | _ => none
  else
    match r1 with
    | '.' :: r2 =>
      let fp := r2.takeWhile isDigitJS
      some (sign * ((natOfDigits ip : ℚ) + (natOfDigits fp : ℚ) / ((10 : ℚ) ^ fp.length)))
    | _ => some (sign * (natOfDigits ip : ℚ))

/-- Regex word boundary `\b` at position `k` of `s`: the word-ness of the
characters on the two sides differs (out of range counts as non-word). -/
def isBoundary (s : Str) (k : Nat) : Bool :=
  (if k = 0 then false else testAt isWordJS s (k - 1)) != testAt isWordJS s k

/-!
The source's number pattern, `documentProcessing.ts` line 526:
  `/(?:£|\$|€)?\s*\b\d+(?:[,.]\d+)?%?\b/g`
compiled by hand to a matcher at one start position. Backtracking is resolved
per the JS semantics of this concrete pattern: the optional currency sign and
the greedy `\s*` never profit from giving characters back (the following `\b`
and `\d+` could not match on a currency sign or a whitespace character), `\d+`
taken greedily is the only length that can succeed (a shorter take leaves a
digit on the right of the next boundary or class test), and the optional
fraction group and `%` fall back in the JS preference order, which the
cascading tests below spell out.
-/

/-- End position of a match of the number pattern starting at index `i`,
`none` when the pattern does not match there. -/
def numMatchAt (s : Str) (i : Nat) : Option Nat :=
  let j := if testAt isCurrency s i then i + 1 else i
  let p := j + runLen isSpaceJS s j
  if !isBoundary s p then none
  else
    let d := runLen isDigitJS s p
    if d = 0 then none
    else
      let q := p + d
      match charAt s q with
      | some c =>
        if (c == '.' || c == ',') && testAt isDigitJS s (q + 1) then
          let e := runLen isDigitJS s (q + 1)
          let r := q + 1 + e
          if charAt s r = some '%' && isBoundary s (r + 1) then some (r + 1)
          else if isBoundary s r then some r
          else if isBoundary s q then some q
          else none
        else if c == '%' && isBoundary s (q + 1) then some (q + 1)
        else if isBoundary s q then some q
        else none
      | none => if isBoundary s q then some q else none

/-- The global-flag scan of `numberRegex`: successive leftmost matches, each
search resuming at the end of the previous match. -/
def numMatchesAux (s : Str) : Nat → Nat → List Str
  | _, 0 => []
  | i, fuel + 1 =>
    if i ≥ s.length then []
    else
      match numMatchAt s i with
      | some e => slice s i e :: numMatchesAux s e fuel
      | none => numMatchesAux s (i + 1) fuel

/-- All matches of `numberRegex` in `s`, in order (JS `content.match(numberRegex)`,
with `[]` standing for the `null` of a matchless string). -/
def numMatches (s : Str) : List Str :=
  numMatchesAux s 0 (s.length + 1)

/-- The keyword alternation of the entity pattern in `extractNumericalData`
(line 560): `council|authority|borough|district|county|unitary|metropolitan`.
No alternative is a prefix of another, so at most one can match at a given
position. -/
def entityKeywords : List Str :=
  ["council".data, "authority".data, "borough".data, "district".data,
   "county".data, "unitary".data, "metropolitan".data]

/-- Length of the entity keyword matching case-insensitively at index `i`. -/
def entityKeywordAt (s : Str) (i : Nat) : Option Nat :=
  (entityKeywords.find? (fun w => atIndexCI w s i)).map List.length

/-- Greedy `(\s+[A-Z][a-z]+)*` (with the `i` flag) from position `q`,
returning the end of the last successful iteration. -/
def entityGroupStar (s : Str) (q : Nat) : Nat → Nat
  | 0 => q
  | fuel + 1 =>
    let sp := runLen isSpaceJS s q
    if sp = 0 then q
    else if testAt isLetterJS s (q + sp) then
      let t := runLen isLetterJS s (q + sp + 1)
      if t = 0 then q
      else entityGroupStar s (q + sp + 1 + t) fuel
    else q

/-- The captured group `([A-Z][a-z]+(\s+[A-Z][a-z]+)*)` under the `i` flag:
a letter followed by at least one more letter, then greedily repeated
whitespace-separated further such words. Nothing follows the group in the
pattern, so the greedy maximal take is the JS match. `fuel` bounds the star. -/
def entityGroupAt (s : Str) (p : Nat) (fuel : Nat) : Option Nat :=
  if testAt isLetterJS s p then
    let t := runLen isLetterJS s (p + 1)
    if t = 0 then none
    else some (entityGroupStar s (p + 1 + t) fuel)
  else none

/-- Match of the whole entity pattern
`/(?:council|authority|borough|district|county|unitary|metropolitan)\s+(?:of\s+)?([A-Z][a-z]+(\s+[A-Z][a-z]+)*)/i`
at start position `i`, returning the text of capture group 1. The greedy
`\s+` runs cannot profit from backtracking (shorter takes leave a whitespace
character where a letter is required); the optional `of\s+` is tried first and
given back when the capture group fails after it, exactly the JS order. -/
def entityMatchAt (s : Str) (i : Nat) : Option Str :=
  match entityKeywordAt s i with
  | none => none
  | some klen =>
    let j := i + klen
    let sp := runLen isSpaceJS s j
    if sp = 0 then none
    else
      let p := j + sp
      let group (st : Nat) : Option Str :=
        (entityGroupAt s st (s.length + 1)).map (fun e => slice s st e)
      let ofBranch : Option Str :=
        if atIndexCI "of".data s p then
          let sp2 := runLen isSpaceJS s (p + 2)
          if sp2 = 0 then none else group (p + 2 + sp2)
        else none
      match ofBranch with
      | some g => some g
      | none => group p

/-- Leftmost match of the entity pattern over the whole string (JS
`context.match(...)` without the global flag), returning capture group 1. -/
def entityMatch (s : Str) : Option Str :=
  ((List.range (s.length + 1)).findSome? (fun i => entityMatchAt s i))

/-- The `financialKeywords` list of `extractNumericalData` (lines 530-534). -/
def financialKeywords : List Str :=
  ["council tax".data, "increase".data, "decrease".data, "rate".data,
   "percentage".data, "budget".data, "funding".data, "allocation".data,
   "spending".data, "cost".data, "expense".data, "revenue".data, "income".data,
   "deficit".data, "surplus".data, "band".data, "authority".data,
   "borough".data, "district".data, "county".data, "unitary".data,
   "metropolitan".data]

/-- A search result as `extractNumericalData` consumes it: the text content,
the document title and an opaque metadata payload passed through unchanged. -/
structure SearchResultIn (μ : Type) where
  content : Str
  documentTitle : Str
  metadata : μ
deriving Repr, DecidableEq

/-- One entry of the list `extractNumericalData` returns. `value` is `none`
when JS `parseFloat` would yield `NaN` (unreachable for texts produced by the
number pattern, which always start with an optional currency sign and
whitespace followed by a digit). -/
structure NumEntry (μ : Type) where
  value : Option ℚ
  isPercentage : Bool
  hasCurrency : Bool
  context : Str
  documentTitle : Str
  isImportant : Bool
  entity : Str
  metadata : μ
deriving Repr, DecidableEq

/-- `extractNumericalData` (`documentProcessing.ts` lines 522-581): scan every
search result's content with the number pattern and wrap each match with a
100-character context window located via `indexOf` (the first occurrence of
the matched text), a keyword-based importance flag and the entity captured by
the entity pattern. -/
def extractNumericalData {μ : Type} (searchResults : List (SearchResultIn μ)) :
    List (NumEntry μ) :=
  searchResults.flatMap fun result =>
    (numMatches result.content).map fun m =>
      let cleaned1 := removeChar ',' m
      let hasCurrency := cleaned1.any isCurrency
      let cleanedMatch :=
        if hasCurrency then stripCurrencyRuns cleaned1.length cleaned1 else cleaned1
      let isPercentage := endsWithJS cleanedMatch "%".data
      let value := parseFloatQ (if isPercentage then cleanedMatch.dropLast else cleanedMatch)
      let idx := (indexOfSub result.content m).getD 0
      let startIndex := idx - 100
      let endIndex := min result.content.length (idx + m.length + 100)
      let context := substringJS result.content startIndex endIndex
      let isImportant :=
        financialKeywords.any (fun kw => hasSubstr (lowerStr context) (lowerStr kw))
      let entity := ((entityMatch context).map trimJS).getD []
      { value := value, isPercentage := isPercentage, hasCurrency := hasCurrency,
        context := context, documentTitle := result.documentTitle,
        isImportant := isImportant, entity := entity, metadata := result.metadata }

/-!
The vector-search layer of `documentProcessing.ts` (lines 360-504). The Prisma
document store is a list of documents, the LangChain text splitter and the
OpenAI embeddings endpoint are function parameters (they are external
collaborators), and the module-level `documentChunks` JS `Map` is an
association list threaded through explicitly. Embedding vectors live in
`List ℝ` because `cosineSimilarity` divides by square roots of norms.
-/

/-- A stored document as the search path reads it. -/
structure Doc where
  id : Str
  title : Str
  content : Str
deriving Repr, DecidableEq

/-- The projection `select { id, title }` used by `semanticSearch`. -/
structure DocRef where
  id : Str
  title : Str
deriving Repr, DecidableEq

/-- The metadata attached to each in-memory chunk (lines 391-397). -/
structure ChunkMeta where
  documentId : Str
  index : Nat
  title : Str
  position : Str
deriving Repr, DecidableEq

/-- An in-memory chunk: content plus metadata. -/
structure Chunk where
  content : Str
  metadata : ChunkMeta
deriving Repr, DecidableEq

/-- The module-level `documentChunks` JS `Map`, as an association list in
insertion order (`Map.set` replaces an existing key in place). -/
abbrev ChunkMap := List (Str × List Chunk)

/-- JS `Map.get`: the entry of the first (and, for a map built through
`mapSet`, only) occurrence of the key. -/
def mapGet : ChunkMap → Str → Option (List Chunk)
  | [], _ => none
  | kv :: rest, k => if kv.1 = k then some kv.2 else mapGet rest k

/-- JS `Map.set`: replace the entry of an existing key in place, else append. -/
def mapSet : ChunkMap → Str → List Chunk → ChunkMap
  | [], k, v => [(k, v)]
  | kv :: rest, k, v => if kv.1 = k then (k, v) :: rest else kv :: mapSet rest k v

/-- The chunk list `createDocumentChunks` builds for a document (lines 386-400):
one chunk per splitter piece, with index, title and a human-readable position. -/
def mkChunks (split : Str → List Str) (d : Doc) : List Chunk :=
  let textChunks := split d.content
  textChunks.mapIdx fun i chunk =>
    { content := chunk,
      metadata :=
        { documentId := d.id, index := i, title := d.title,
          position := "Chunk ".data ++ (Nat.repr (i + 1)).data ++ " of ".data ++
            (Nat.repr textChunks.length).data } }

/-- `createDocumentChunks` (lines 371-410): look the document up in the store,
split it, store the chunks under its id, return the chunk count. A missing
document is the thrown `Document with ID ... not found` error. -/
def createDocumentChunks (split : Str → List Str) (store : List Doc)
    (documentId : Str) (m : ChunkMap) : Except Str (ChunkMap × Nat) :=
  match store.find? fun d => d.id = documentId with
  | none => .error ("Document with ID ".data ++ documentId ++ " not found".data)
  | some document =>
    .ok (mapSet m documentId (mkChunks split document), (split document.content).length)

/-- `cosineSimilarity` (lines 429-442): the loop runs over the indices of
`vecA`; a read of `vecB` past its end (JS `undefined`, which would poison the
result to `NaN`; embeddings share a fixed length) is modelled as `0`. -/
noncomputable def cosineSimilarity (vecA vecB : List ℝ) : ℝ :=
  let dotProduct := ∑ i ∈ Finset.range vecA.length, vecA.getD i 0 * vecB.getD i 0
  let normA := ∑ i ∈ Finset.range vecA.length, vecA.getD i 0 * vecA.getD i 0
  let normB := ∑ i ∈ Finset.range vecA.length, vecB.getD i 0 * vecB.getD i 0
  dotProduct / (Real.sqrt normA * Real.sqrt normB)

/-- A chunk scored against the query, the element of the `results` array that
`semanticSearch` accumulates. -/
structure Scored where
  chunk : Chunk
  doc : DocRef
  similarity : ℝ

/-- A formatted result of `semanticSearch` (lines 490-496). -/
structure FmtResult where
  content : Str
  documentId : Str
  documentTitle : Str
  similarity : ℝ
  metadata : ChunkMeta

/-- The comparator `(a, b) => b.similarity - a.similarity`: `a` precedes `b`
when its similarity is at least as large. -/
def simGE (a b : Scored) : Prop :=
  b.similarity ≤ a.similarity

noncomputable instance : DecidableRel simGE :=
  fun a b => Real.decidableLE _ _

instance : IsTotal Scored simGE :=
  ⟨fun a b => le_total b.similarity a.similarity⟩

instance : IsTrans Scored simGE :=
  ⟨fun _ _ _ h1 h2 => le_trans h2 h1⟩

/-- The get-or-create step at the top of the document loop (lines 462-469):
take the document's chunks from the map, creating and re-reading them (with
`|| []` on the re-read) when the map has no entry. -/
def getOrCreateChunks (split : Str → List Str) (store : List Doc) (d : DocRef)
    (m : ChunkMap) : Except Str (List Chunk × ChunkMap) :=
  match mapGet m d.id with
  | some cs => .ok (cs, m)
  | none =>
    match createDocumentChunks split store d.id m with
    | .error e => .error e
    | .ok (m', _) => .ok ((mapGet m' d.id).getD [], m')

/-- The document loop of `semanticSearch` (lines 458-482): fetch or create the
chunks of each document, embed every chunk and score it against the query
embedding. Returns the final chunk map, the scored results in encounter order
and the list of texts sent to the embedding endpoint. -/
noncomputable def searchLoop (emb : Str → List ℝ) (qe : List ℝ)
    (split : Str → List Str) (store : List Doc) :
    List DocRef → ChunkMap → Except Str (ChunkMap × List Scored × List Str)
  | [], m => .ok (m, [], [])
  | d :: ds, m =>
    match getOrCreateChunks split store d m with
    | .error e => .error e
    | .ok (chunks, m₁) =>
      match searchLoop emb qe split store ds m₁ with
      | .error e => .error e
      | .ok (m₂, scored, trace) =>
        .ok (m₂,
          chunks.map (fun c => ⟨c, d, cosineSimilarity qe (emb c.content)⟩) ++ scored,
          chunks.map (·.content) ++ trace)

/-- The formatting step of `semanticSearch` (lines 490-496). -/
def fmtResult (r : Scored) : FmtResult :=
  { content := r.chunk.content, documentId := r.doc.id,
    documentTitle := r.doc.title, similarity := r.similarity,
    metadata := r.chunk.metadata }

/-- `semanticSearch` (lines 445-504): embed the query, walk every stored
document's chunks, sort all scored chunks by descending similarity (a stable
sort, as JS `Array.prototype.sort`) and keep the first `limit`. The returned
triple carries the formatted results, the final chunk map and the ordered
list of embedding-endpoint inputs. -/
noncomputable def semanticSearch (emb : Str → List ℝ) (split : Str → List Str)
    (store : List Doc) (m0 : ChunkMap) (query : Str) (limit : Nat) :
    Except Str (List FmtResult × ChunkMap × List Str) :=
  let queryEmbedding := emb query
  let documents : List DocRef := store.map fun d => ⟨d.id, d.title⟩
  match searchLoop emb queryEmbedding split store documents m0 with
  | .error e => .error e
  | .ok (m', results, trace) =>
    let topResults := (List.insertionSort simGE results).take limit
    .ok (topResults.map fmtResult, m', query :: trace)

/-- Specification view of the chunk texts embedded during a search: for each
document, the contents of its entry in the final chunk map. -/
def chunkContents (m : ChunkMap) (docs : List DocRef) : List Str :=
  docs.flatMap fun d => ((mapGet m d.id).getD []).map (·.content)

/-- Specification view of the scored-chunk pool a search draws from: every
chunk of every document, scored against the query embedding. -/
noncomputable def candidates (emb : Str → List ℝ) (qe : List ℝ) (m : ChunkMap)
    (docs : List DocRef) : List Scored :=
  docs.flatMap fun d =>
    ((mapGet m d.id).getD []).map fun c => ⟨c, d, cosineSimilarity qe (emb c.content)⟩

/-- Setting a key makes it readable. -/
theorem mapGet_mapSet_self (k : Str) (v : List Chunk) :
    ∀ m : ChunkMap, mapGet (mapSet m k v) k = some v
  | [] => by simp [mapGet, mapSet]
  | kv :: rest => by
    by_cases h : kv.1 = k
    · simp [mapGet, mapSet, h]
    · simpa only [mapSet, if_neg h, mapGet] using mapGet_mapSet_self k v rest

/-- Setting one key leaves every other key unchanged. -/
theorem mapGet_mapSet_ne (k k' : Str) (v : List Chunk) (h : k' ≠ k) :
    ∀ m : ChunkMap, mapGet (mapSet m k v) k' = mapGet m k'
  | [] => by simp [mapGet, mapSet, Ne.symm h]
  | kv :: rest => by
    by_cases hk : kv.1 = k
    · simp only [mapSet, if_pos hk, mapGet, if_neg (Ne.symm h), hk]
    · simp only [mapSet, if_neg hk, mapGet]
      by_cases hk' : kv.1 = k'
      · simp [hk']
      · rw [if_neg hk', if_neg hk']
        exact mapGet_mapSet_ne k k' v h rest

/-- The document loop always succeeds when every listed document reference has
a backing store document, and it then: preserves every existing chunk-map
entry, leaves every processed document with an entry, fills previously missing
entries with exactly the chunks split from the first store document of that id,
and returns the scored pool and embedding-call trace described by `candidates`
and `chunkContents` over the final map. -/
theorem searchLoop_spec (emb : Str → List ℝ) (qe : List ℝ)
    (split : Str → List Str) (store : List Doc) :
    ∀ (docs : List DocRef) (m : ChunkMap),
      (∀ d ∈ docs, ∃ x ∈ store, x.id = d.id) →
      ∃ m' scored trace,
        searchLoop emb qe split store docs m = .ok (m', scored, trace) ∧
        (∀ k w, mapGet m k = some w → mapGet m' k = some w) ∧
        (∀ d ∈ docs, (mapGet m' d.id).isSome) ∧
        (∀ d ∈ docs, mapGet m d.id = none →
          ∃ d', store.find? (fun x => x.id = d.id) = some d' ∧
            mapGet m' d.id = some (mkChunks split d')) ∧
        scored = candidates emb qe m' docs ∧
        trace = chunkContents m' docs := by
  intro docs
  induction docs with
  | nil =>
    intro m _
    exact ⟨m, [], [], rfl, fun k w h => h, by simp, by simp,
      by simp [candidates], by simp [chunkContents]⟩
  | cons d ds ih =>
    intro m hdocs
    have hd : ∃ x ∈ store, x.id = d.id := hdocs d (by simp)
    have hds : ∀ d' ∈ ds, ∃ x ∈ store, x.id = d'.id :=
      fun d' hmem => hdocs d' (by simp [hmem])
    -- the get-or-create step
    obtain ⟨cs, m₁, hstep, hentry, hother, hcase, hnewcase⟩ :
        ∃ cs m₁,
          getOrCreateChunks split store d m = Except.ok (cs, m₁) ∧
          mapGet m₁ d.id = some cs ∧
          (∀ k, k ≠ d.id → mapGet m₁ k = mapGet m k) ∧
          (mapGet m d.id = none ∨ m₁ = m) ∧
          (mapGet m d.id = none →
            ∃ d', store.find? (fun x => x.id = d.id) = some d' ∧
              cs = mkChunks split d') := by
      cases hm : mapGet m d.id with
      | some cs =>
        exact ⟨cs, m, by simp [getOrCreateChunks, hm], hm, fun _ _ => rfl,
          Or.inr rfl, by simp [hm]⟩
      | none =>
        obtain ⟨x, hx, hxid⟩ := hd
        have hfind : (store.find? fun y => y.id = d.id).isSome := by
          rw [List.find?_isSome]
          exact ⟨x, hx, by simp [hxid]⟩
        obtain ⟨d', hd'⟩ := Option.isSome_iff_exists.mp hfind
        refine ⟨mkChunks split d', mapSet m d.id (mkChunks split d'), ?_, ?_, ?_,
          Or.inl rfl, fun _ => ⟨d', hd', rfl⟩⟩
        · simp [getOrCreateChunks, hm, createDocumentChunks, hd', mapGet_mapSet_self]
        · exact mapGet_mapSet_self _ _ _
        · exact fun k hk => mapGet_mapSet_ne _ _ _ hk m
    obtain ⟨m₂, scored, trace, hrun, hpres, hsome, hnew, hsc, htr⟩ := ih m₁ hds
    have hentry₂ : mapGet m₂ d.id = some cs := hpres _ _ hentry
    refine ⟨m₂, cs.map (fun c => ⟨c, d, cosineSimilarity qe (emb c.content)⟩) ++ scored,
      cs.map (·.content) ++ trace, ?_, ?_, ?_, ?_, ?_, ?_⟩
    · simp only [searchLoop, hstep, hrun]
    · intro k w hw
      rcases hcase with hnone | rfl
      · rcases eq_or_ne k d.id with rfl | hk
        · rw [hnone] at hw
          exact absurd hw (by simp)
        · exact hpres _ _ (by rw [hother k hk]; exact hw)
      · exact hpres _ _ hw
    · intro d2 hmem
      rcases List.mem_cons.mp hmem with rfl | hmem'
      · simp [hentry₂]
      · exact hsome d2 hmem'
    · intro d2 hmem hnone
      rcases List.mem_cons.mp hmem with rfl | hmem'
      · obtain ⟨d', hfind', hcs⟩ := hnewcase hnone
        exact ⟨d', hfind', hcs ▸ hentry₂⟩
      · rcases eq_or_ne d2.id d.id with hid | hid
        · obtain ⟨d', hfind', hcs⟩ := hnewcase (hid ▸ hnone)
          refine ⟨d', ?_, ?_⟩
          · rw [hid]; exact hfind'
          · rw [hid, hentry₂, hcs]
        · have : mapGet m₁ d2.id = none := (hother _ hid).trans hnone
          exact hnew d2 hmem' this
    · simp only [candidates, List.flatMap_cons, hentry₂, Option.getD_some, hsc]
    · simp only [chunkContents, List.flatMap_cons, hentry₂, Option.getD_some, htr]

/-- The input of the repository's one automated unit test: `Cost was £10.`,
then 150 `a` characters, then `Later cost became £20.`. -/
def multiMatchInput : Str :=
  "Cost was £10.".data ++ List.replicate 150 'a' ++ "Later cost became £20.".data

set_option maxRecDepth 20000 in
/-- C1: on a single search result whose content is `Cost was £10.` followed by
150 `a` characters followed by `Later cost became £20.`,
`extractNumericalData` returns exactly two entries whose context windows do
not cross-contaminate: the first entry's context contains `£10` but not `£20`,
and the second entry's context contains `£20`. -/
theorem extractNumericalData_context_separation :
    (extractNumericalData [⟨multiMatchInput, "Doc".data, ()⟩]).length = 2 ∧
    ((extractNumericalData [⟨multiMatchInput, "Doc".data, ()⟩]).get? 0).map
      (fun e => hasSubstr e.context "£10".data && !hasSubstr e.context "£20".data) =
      some true ∧
    ((extractNumericalData [⟨multiMatchInput, "Doc".data, ()⟩]).get? 1).map
      (fun e => hasSubstr e.context "£20".data) = some true := by
  decide

/-- C2: `semanticSearch` embeds the query and then every chunk of every stored
document (the trace of embedding-endpoint inputs is the query followed by all
chunk contents, on every call and with no cache consulted for embeddings), and
returns at most `limit` results, namely the scored chunks of highest cosine
similarity, in non-increasing similarity order (a sorted permutation of the
full candidate pool, cut after `limit`). -/
theorem semanticSearch_bruteforce_topk (emb : Str → List ℝ)
    (split : Str → List Str) (store : List Doc) (m0 : ChunkMap) (query : Str)
    (limit : Nat) :
    ∃ res m' trace l,
      semanticSearch emb split store m0 query limit = .ok (res, m', trace) ∧
      trace = query :: chunkContents m' (store.map fun d => ⟨d.id, d.title⟩) ∧
      List.Perm l (candidates emb (emb query) m' (store.map fun d => ⟨d.id, d.title⟩)) ∧
      List.Sorted simGE l ∧
      res = (l.take limit).map fmtResult ∧
      res.length ≤ limit ∧
      List.Chain' (fun a b : FmtResult => b.similarity ≤ a.similarity) res := by
  have hdocs : ∀ d ∈ store.map (fun d => (⟨d.id, d.title⟩ : DocRef)),
      ∃ x ∈ store, x.id = d.id := by
    intro d hd
    obtain ⟨x, hx, rfl⟩ := List.mem_map.mp hd
    exact ⟨x, hx, rfl⟩
  obtain ⟨m', scored, trace, hrun, _, _, _, hsc, htr⟩ :=
    searchLoop_spec emb (emb query) split store
      (store.map fun d => ⟨d.id, d.title⟩) m0 hdocs
  have hpair : ((List.insertionSort simGE scored).take limit).Pairwise simGE :=
    (List.sorted_insertionSort simGE scored).sublist (List.take_sublist _ _)
  refine ⟨_, m', query :: trace, List.insertionSort simGE scored, ?_, ?_, ?_, ?_,
    rfl, ?_, ?_⟩
  · simp only [semanticSearch, hrun]
  · rw [htr]
  · rw [hsc]
    exact List.perm_insertionSort _ _
  · exact List.sorted_insertionSort _ _
  · rw [List.length_map]
    exact List.length_take_le _ _
  · rw [List.chain'_map]
    exact hpair.chain'

/-- C6: after any successful `semanticSearch`, every stored document id has an
entry in the in-memory chunk map; entries present before the call are never
removed or replaced; and any id that had no entry now holds exactly the chunks
split from the first store document with that id. -/
theorem semanticSearch_chunkMap_invariant (emb : Str → List ℝ)
    (split : Str → List Str) (store : List Doc) (m0 : ChunkMap) (query : Str)
    (limit : Nat) :
    ∃ res m' trace,
      semanticSearch emb split store m0 query limit = .ok (res, m', trace) ∧
      (∀ d ∈ store, (mapGet m' d.id).isSome) ∧
      (∀ k w, mapGet m0 k = some w → mapGet m' k = some w) ∧
      (∀ d ∈ store, mapGet m0 d.id = none →
        ∃ d', store.find? (fun x => x.id = d.id) = some d' ∧
          mapGet m' d.id = some (mkChunks split d')) := by
  have hdocs : ∀ d ∈ store.map (fun d => (⟨d.id, d.title⟩ : DocRef)),
      ∃ x ∈ store, x.id = d.id := by
    intro d hd
    obtain ⟨x, hx, rfl⟩ := List.mem_map.mp hd
    exact ⟨x, hx, rfl⟩
  obtain ⟨m', scored, trace, hrun, hpres, hsome, hnew, _, _⟩ :=
    searchLoop_spec emb (emb query) split store
      (store.map fun d => ⟨d.id, d.title⟩) m0 hdocs
  refine ⟨((List.insertionSort simGE scored).take limit).map fmtResult, m',
    query :: trace, ?_, ?_, hpres, ?_⟩
  · simp only [semanticSearch, hrun]
  · intro d hd
    exact hsome ⟨d.id, d.title⟩ (List.mem_map.mpr ⟨d, hd, rfl⟩)
  · intro d hd hnone
    exact hnew ⟨d.id, d.title⟩ (List.mem_map.mpr ⟨d, hd, rfl⟩) hnone

/-- `estimateTokenCount` (lines 785-788): `Math.ceil(text.length / 4)`. -/
def estimateTokenCount (text : Str) : Nat :=
  (text.length + 3) / 4

/-- `truncateContext` (lines 791-821): a context within the token budget is
returned unchanged; otherwise the context is split into its `---`-separated
documents (empty pieces dropped, as JS `filter(Boolean)`), each document's
part after the first `Content: ` is cut to the per-document share of the
budget minus its header (`availableTokens` can go negative in JS, clamped to
an empty take by `substring`), and the pieces are rejoined with `---\n\n`.
With no documents, the JS division by zero feeds a `map` over an empty array,
so the result is the empty join either way. -/
def truncateContext (context : Str) (maxTokens : Nat) : Str :=
  let estimatedTokens := estimateTokenCount context
  if estimatedTokens ≤ maxTokens then context
  else
    let documents := (splitSub context "---".data).filter (fun d => !d.isEmpty)
    let avgTokensPerDoc := maxTokens / documents.length
    joinSep "---\n\n".data <| documents.map fun doc =>
      match splitSub doc "Content: ".data with
      | p0 :: p1 :: _ =>
        let header := p0 ++ "Content: ".data
        let headerTokens := estimateTokenCount header
        let availableTokens : Int := (avgTokensPerDoc : Int) - (headerTokens : Int)
        if (estimateTokenCount p1 : Int) > availableTokens then
          header ++ (substringJS p1 0 (availableTokens * 4).toNat ++ "... [truncated]".data)
        else doc
      | _ => doc

/-- C9: `truncateContext` is the identity on a context already within budget. -/
theorem truncateContext_within_budget (context : Str) (maxTokens : Nat)
    (h : estimateTokenCount context ≤ maxTokens) :
    truncateContext context maxTokens = context := by
  simp only [truncateContext, if_pos h]

/-- Witness for C9 at a concrete input. -/
theorem truncateContext_within_budget_witness :
    estimateTokenCount "Content: abc".data ≤ 5 ∧
    truncateContext "Content: abc".data 5 = "Content: abc".data :=
  ⟨by decide, truncateContext_within_budget _ _ (by decide)⟩

/-!
`multiDocumentRAG` (`documentProcessing.ts` lines 823-1040). The OpenAI chat
completion and the Gemini client are function parameters returning
`Except Str Str` (error message or response text); `prepareDataForAnalysis`
(lines 633-781), whose output only feeds text into the user message, is a
parameter producing the numerical-data and entity lists that the message
builder renders. The second component of the result is the list of
`(system, user)` message pairs sent to the chat-completion endpoint.
-/

/-- The `analysisKeywords` of `requiresDataAnalysis` (lines 507-515). -/
def analysisKeywords : List Str :=
  ["average".data, "mean".data, "median".data, "calculate".data, "sum".data,
   "total".data, "percentage".data, "compare".data, "difference".data,
   "higher".data, "lower".data, "more".data, "less".data, "increase".data,
   "decrease".data, "trend".data, "analysis".data, "statistics".data,
   "statistical".data, "correlation".data, "relationship".data,
   "council tax".data, "raise".data, "raised".data, "political control".data,
   "labour".data, "conservative".data, "lib dem".data,
   "liberal democrat".data, "green".data, "independent".data, "party".data,
   "controlled".data]

/-- `requiresDataAnalysis` (lines 506-519). -/
def requiresDataAnalysis (query : Str) : Bool :=
  analysisKeywords.any fun keyword => hasSubstr (lowerStr query) (lowerStr keyword)

/-- A numerical-data item as the message builder renders it; `value` carries
the JS number's decimal rendering, the only use the builder makes of it. -/
structure AnalysisNum where
  value : Str
  documentTitle : Str
  context : Str

/-- An entity item as the message builder renders it. -/
structure AnalysisEntity where
  entity : Str
  type : Str
  documentTitle : Str

/-- The fields of `prepareDataForAnalysis`'s result that `multiDocumentRAG`
reads (its `councilTaxData` is unused by the message builder). -/
structure AnalysisData where
  numericalData : List AnalysisNum
  entities : List AnalysisEntity

/-- The context block (lines 834-840): one `Document:`/`Content:` stanza per
search result, joined by blank lines, with `Unknown position` substituted for
a falsy position. -/
def ragContext (searchResults : List FmtResult) : Str :=
  joinSep "\n\n".data <| searchResults.map fun result =>
    "Document: ".data ++ result.documentTitle ++ " (".data ++
      (if result.metadata.position.isEmpty then "Unknown position".data
       else result.metadata.position) ++
      ")\nContent: ".data ++ result.content ++ "\n---".data

/-- The base system message (lines 844-848). -/
def baseSystemMessage : Str :=
  ("You are BlueEdge, an advanced AI assistant for the Conservative Research Department. \nYour purpose is to analyze political documents and provide factual, data-driven insights.\n\nYou will be given a query and relevant excerpts from multiple documents.\nSynthesize information from all provided document excerpts to answer the query comprehensively.").data

/-- The data-analysis addendum to the system message (lines 852-868). -/
def analysisSystemAddendum : Str :=
  ("\n\nThis query requires data analysis. When performing calculations or comparisons:\n- Extract all relevant numerical data from the documents\n- Perform calculations accurately using all available data, not just sample data\n- Show your calculation process step by step\n- Present results with proper statistical context\n- If comparing entities (e.g., political parties), ensure you use representative samples\n- Clearly state your methodology and any limitations in the data\n\nFor council tax analysis specifically:\n- Match local authorities with their political control\n- Calculate averages by political party accurately\n- Consider the type of authority (district, unitary, etc.) in your analysis\n- Present both the raw data and the calculated averages\n- Explain any outliers or anomalies in the data").data

/-- The formatting addendum to the system message (lines 870-881). -/
def formattingSystemAddendum : Str :=
  ("\n\nFORMATTING REQUIREMENTS:\n- Present your analysis in clean, well-structured format with clear headings\n- Use proper markdown tables with headers and aligned columns when presenting structured data\n- Use numbered lists (1. 2. 3.) for sequential items\n- Use headings (## and ###) to organize your response clearly\n- Keep your analysis concise and focused on the most important insights\n\nAlways cite the specific document sources in your answer.\nIf the documents don't contain sufficient information to answer the query, explain what specific information is missing.").data

/-- The assembled system message (lines 844-881). -/
def ragSystemMessage (needsAnalysis : Bool) : Str :=
  baseSystemMessage ++ (if needsAnalysis then analysisSystemAddendum else []) ++
    formattingSystemAddendum

/-- The `Extracted Numerical Data` block (lines 888-894), empty when there are
no items. -/
def renderNumericalData (nd : List AnalysisNum) : Str :=
  if nd.isEmpty then []
  else
    "\n\nExtracted Numerical Data:\n".data ++
      (nd.map fun item =>
        "- Value: ".data ++ item.value ++ ", Document: ".data ++
          item.documentTitle ++ ", Context: \"".data ++ trimJS item.context ++
          "\"\n".data).flatten

/-- Insertion of one entity into the grouped accumulator. -/
def addEntity : List (Str × List Str) → Str → Str → List (Str × List Str)
  | [], t, v => [(t, [v])]
  | (t', vs) :: rest, t, v =>
    if t' = t then (t', if v ∈ vs then vs else vs ++ [v]) :: rest
    else (t', vs) :: addEntity rest t v

/-- The entity grouping of lines 897-912: a JS object keyed by type in first-
occurrence order, each type's list deduplicated with `includes`. -/
def groupEntities : List (Str × List Str) → List AnalysisEntity → List (Str × List Str)
  | acc, [] => acc
  | acc, e :: rest => groupEntities (addEntity acc e.type e.entity) rest

/-- The `Extracted Entities` block of the initial user message
(lines 896-918), empty when there are no entities. -/
def renderEntitiesGrouped (es : List AnalysisEntity) : Str :=
  if es.isEmpty then []
  else
    "\n\nExtracted Entities:\n".data ++
      ((groupEntities [] es).map fun g =>
        "- ".data ++ g.1 ++ ": ".data ++ joinSep ", ".data g.2 ++ "\n".data).flatten

/-- First-occurrence deduplication, JS `Array.from(new Set(...))`. -/
def dedupFirst (l : List Str) : List Str :=
  l.foldl (fun acc x => if x ∈ acc then acc else acc ++ [x]) []

/-- The `Extracted Entities` block of the truncation branch (lines 975-986):
the `Set`-based regrouping, which renders types in first-occurrence order. -/
def renderEntitiesSets (es : List AnalysisEntity) : Str :=
  if es.isEmpty then []
  else
    "\n\nExtracted Entities:\n".data ++
      ((dedupFirst (es.map (·.type))).map fun t =>
        "- ".data ++ t ++ ": ".data ++
          joinSep ", ".data (dedupFirst ((es.filter fun e => e.type = t).map (·.entity))) ++
          "\n".data).flatten

/-- The initial user message (lines 884-921). -/
def ragUserMessageInit (query : Str) (ctx : Str) (ad : Option AnalysisData) : Str :=
  "Query: ".data ++ query ++ "\n\nDocument Excerpts:\n".data ++ ctx ++
    (match ad with
     | some a => renderNumericalData a.numericalData ++ renderEntitiesGrouped a.entities
     | none => [])

/-- The rebuilt user message of the truncation branch (lines 962-988). -/
def ragUserMessageTrunc (query : Str) (tctx : Str) (ad : Option AnalysisData) : Str :=
  "Query: ".data ++ query ++ "\n\nDocument Excerpts:\n".data ++ tctx ++
    (match ad with
     | some a => renderNumericalData a.numericalData ++ renderEntitiesSets a.entities
     | none => [])

/-- The analysis data `multiDocumentRAG` computes (line 831): present exactly
when the query needs analysis. -/
def ragAnalysisData (prepareData : List FmtResult → AnalysisData)
    (query : Str) (rs : List FmtResult) : Option AnalysisData :=
  if requiresDataAnalysis query then some (prepareData rs) else none

/-- The system message for a query. -/
def ragSys (query : Str) : Str :=
  ragSystemMessage (requiresDataAnalysis query)

/-- The initial user message for a query over given search results. -/
def ragInitMsg (prepareData : List FmtResult → AnalysisData) (query : Str)
    (rs : List FmtResult) : Str :=
  ragUserMessageInit query (ragContext rs) (ragAnalysisData prepareData query rs)

/-- The estimated total token count (lines 924-925). -/
def ragTokens (prepareData : List FmtResult → AnalysisData) (query : Str)
    (rs : List FmtResult) : Nat :=
  estimateTokenCount (ragSys query) + estimateTokenCount (ragInitMsg prepareData query rs)

/-- The possibly once-truncated context (lines 957-961): over 8000 estimated
tokens, the context is truncated to the `maxContextTokens` budget of 7000. -/
def ragTruncCtx (prepareData : List FmtResult → AnalysisData) (query : Str)
    (rs : List FmtResult) : Str :=
  if ragTokens prepareData query rs > 8000 then truncateContext (ragContext rs) 7000
  else ragContext rs

/-- The user message actually sent on the first chat-completion call. -/
def ragFinalMsg (prepareData : List FmtResult → AnalysisData) (query : Str)
    (rs : List FmtResult) : Str :=
  if ragTokens prepareData query rs > 8000 then
    ragUserMessageTrunc query (ragTruncCtx prepareData query rs)
      (ragAnalysisData prepareData query rs)
  else ragInitMsg prepareData query rs

/-- The user message of the single retry (lines 1014-1016): the context cut to
`Math.floor(7000 / 2)` tokens, with the truncation note. -/
def ragRetryMsg (prepareData : List FmtResult → AnalysisData) (query : Str)
    (rs : List FmtResult) : Str :=
  "Query: ".data ++ query ++ "\n\nDocument Excerpts:\n".data ++
    truncateContext (ragTruncCtx prepareData query rs) (7000 / 2) ++
    "\n\nNote: Document excerpts have been significantly truncated due to length constraints.".data

/-- The `|| 'No response generated'` default on an empty completion text. -/
def orNoResponse (t : Str) : Str :=
  if t.isEmpty then "No response generated".data else t

/-- The note appended to a retried completion (line 1034 of the dist listing,
source line 1033). -/
def reducedContextNote : Str :=
  "\n\n*Note: Analysis was performed with reduced document context due to length constraints.*".data

/-- The friendly message of the outer catch for rate-limit errors
(lines 1034-1036). -/
def apologyMessage : Str :=
  ("The analysis could not be completed because the documents contain too much text. Please try a more specific question or upload smaller documents.").data

/-- The outer catch of `multiDocumentRAG` (lines 1030-1039): an error whose
message contains `429` becomes the apology text, every other error is
rethrown. -/
def ragCatch (r : Except Str Str) : Except Str Str :=
  match r with
  | .error e => if hasSubstr e "429".data then .ok apologyMessage else .error e
  | .ok t => .ok t

/-- The thrown message when the Gemini branch finds no configured client
(lines 932-934). -/
def geminiMissingMessage : Str :=
  "Gemini API key is not configured. Please add GEMINI_API_KEY to your .env.local file.".data

/-- The body of `multiDocumentRAG` after the semantic search (lines 826-1040):
message assembly, the Gemini switch above 100000 estimated tokens, the
once-truncated OpenAI call, the single `Request too large` retry at half the
7000-token context budget, and the outer catch. The second component lists
the `(system, user)` pairs sent to the chat-completion endpoint. -/
def multiDocumentRAGCore (complete : Str → Str → Except Str Str)
    (gemini : Option (Str → Str → Except Str Str))
    (prepareData : List FmtResult → AnalysisData) (query : Str)
    (searchResults : List FmtResult) : Except Str Str × List (Str × Str) :=
  let systemMessage := ragSys query
  if ragTokens prepareData query searchResults > 100000 then
    match gemini with
    | none => (ragCatch (.error geminiMissingMessage), [])
    | some generateContent =>
      match generateContent systemMessage (ragInitMsg prepareData query searchResults) with
      | .ok t => (.ok t, [])
      | .error geminiError =>
        (ragCatch (.error ("Error using Gemini API: ".data ++
          (if geminiError.isEmpty then "Unknown error".data else geminiError))), [])
  else
    let finalUserMessage := ragFinalMsg prepareData query searchResults
    match complete systemMessage finalUserMessage with
    | .ok t => (.ok (orNoResponse t), [(systemMessage, finalUserMessage)])
    | .error apiError =>
      if hasSubstr apiError "Request too large".data then
        let reducedUserMessage := ragRetryMsg prepareData query searchResults
        match complete systemMessage reducedUserMessage with
        | .ok t2 =>
          (.ok (orNoResponse t2 ++ reducedContextNote),
           [(systemMessage, finalUserMessage), (systemMessage, reducedUserMessage)])
        | .error e2 =>
          (ragCatch (.error e2),
           [(systemMessage, finalUserMessage), (systemMessage, reducedUserMessage)])
      else (ragCatch (.error apiError), [(systemMessage, finalUserMessage)])

/-- `multiDocumentRAG` (lines 823-1040): semantic search feeding the message
assembly and completion calls; an error thrown by the search also passes
through the outer catch. -/
noncomputable def multiDocumentRAG (emb : Str → List ℝ) (split : Str → List Str)
    (complete : Str → Str → Except Str Str)
    (gemini : Option (Str → Str → Except Str Str))
    (prepareData : List FmtResult → AnalysisData) (store : List Doc)
    (m0 : ChunkMap) (query : Str) (limit : Nat) :
    Except Str Str × List (Str × Str) :=
  match semanticSearch emb split store m0 query limit with
  | .error e => (ragCatch (.error e), [])
  | .ok (searchResults, _, _) =>
    multiDocumentRAGCore complete gemini prepareData query searchResults

/-- C3 (amended): within the OpenAI branch, when the chat-completion call
fails with an error containing `Request too large`, exactly one retry is made,
with the context truncated to half of the 7000-token context budget and the
truncation note in the user message, and on success the retry's text is
returned with a note appended; an error not containing that string is never
retried, and it is rethrown unless its message contains `429`, in which case
the outer catch swallows it and returns the fixed apology text. -/
theorem multiDocumentRAG_retry_policy (emb : Str → List ℝ)
    (split : Str → List Str) (complete : Str → Str → Except Str Str)
    (gemini : Option (Str → Str → Except Str Str))
    (prepareData : List FmtResult → AnalysisData) (store : List Doc)
    (m0 : ChunkMap) (query : Str) (limit : Nat) (rs : List FmtResult)
    (m1 : ChunkMap) (tr : List Str) (e : Str)
    (hsearch : semanticSearch emb split store m0 query limit = .ok (rs, m1, tr))
    (htok : ragTokens prepareData query rs ≤ 100000)
    (herr : complete (ragSys query) (ragFinalMsg prepareData query rs) = .error e) :
    (hasSubstr e "Request too large".data = true →
      (multiDocumentRAG emb split complete gemini prepareData store m0 query limit).2 =
        [(ragSys query, ragFinalMsg prepareData query rs),
         (ragSys query, ragRetryMsg prepareData query rs)] ∧
      ∀ t, complete (ragSys query) (ragRetryMsg prepareData query rs) = .ok t →
        (multiDocumentRAG emb split complete gemini prepareData store m0 query limit).1 =
          .ok (orNoResponse t ++ reducedContextNote)) ∧
    (hasSubstr e "Request too large".data = false →
      (multiDocumentRAG emb split complete gemini prepareData store m0 query limit).2 =
        [(ragSys query, ragFinalMsg prepareData query rs)] ∧
      (multiDocumentRAG emb split complete gemini prepareData store m0 query limit).1 =
        (if hasSubstr e "429".data then .ok apologyMessage else .error e)) := by
  have hng : ¬ (ragTokens prepareData query rs > 100000) := by omega
  simp only [multiDocumentRAG, hsearch, multiDocumentRAGCore, if_neg hng, herr]
  constructor
  · intro hrtl
    simp only [hrtl, if_true]
    cases hret : complete (ragSys query) (ragRetryMsg prepareData query rs) with
    | ok t2 =>
      simp only [hret]
      refine ⟨by trivial, fun t ht => ?_⟩
      obtain rfl : t2 = t := by injection ht
      rfl
    | error e2 =>
      simp only [hret]
      refine ⟨by trivial, fun t ht => ?_⟩
      injection ht
  · intro hnot
    simp only [hnot, Bool.false_eq_true, if_false, ragCatch]
    refine ⟨by trivial, by trivial⟩

set_option maxRecDepth 40000 in
/-- Witness for C3 at a concrete input: an empty store, embedding and split
stubs and a completion endpoint that always reports `Request too large`. -/
theorem multiDocumentRAG_retry_policy_witness :
    (multiDocumentRAG (fun _ => []) (fun _ => [])
        (fun _ _ => .error "Request too large".data) none
        (fun _ => ⟨[], []⟩) [] [] "q".data 10).2 =
      [(ragSys "q".data, ragFinalMsg (fun _ => ⟨[], []⟩) "q".data []),
       (ragSys "q".data, ragRetryMsg (fun _ => ⟨[], []⟩) "q".data [])] :=
  ((multiDocumentRAG_retry_policy (fun _ => []) (fun _ => [])
      (fun _ _ => .error "Request too large".data) none (fun _ => ⟨[], []⟩)
      [] [] "q".data 10 [] [] ["q".data] "Request too large".data
      rfl (by decide) rfl).1 (by decide)).1

set_option maxRecDepth 40000 in
/-- C3 counterexample to the claim as stated: a completion error whose message
is `429` does not contain `Request too large`, and it is not rethrown —
`multiDocumentRAG` returns a success text (the apology message) after the one
and only completion call. -/
theorem multiDocumentRAG_429_swallowed :
    (multiDocumentRAG (fun _ => []) (fun _ => [])
        (fun _ _ => .error "429".data) none (fun _ => ⟨[], []⟩)
        [] [] "q".data 10).1 = .ok apologyMessage ∧
    (multiDocumentRAG (fun _ => []) (fun _ => [])
        (fun _ _ => .error "429".data) none (fun _ => ⟨[], []⟩)
        [] [] "q".data 10).2.length = 1 ∧
    (multiDocumentRAG (fun _ => []) (fun _ => [])
        (fun _ _ => .error "429".data) none (fun _ => ⟨[], []⟩)
        [] [] "q".data 10).1 ≠ .error "429".data := by
  have h1 : (multiDocumentRAG (fun _ => []) (fun _ => [])
      (fun _ _ => .error "429".data) none (fun _ => ⟨[], []⟩)
      [] [] "q".data 10).1 = .ok apologyMessage := rfl
  refine ⟨h1, rfl, fun h => ?_⟩
  rw [h1] at h
  injection h

/-!
`councilTaxAnalysis.ts`. `analyzeCouncilTaxData` receives the fetched document
list (the Prisma query merely filters by the optional id list); its console
logging is ignored and its `debug` payload is kept. Its two regular
expressions are compiled by hand with the JS backtracking order spelled out.
-/

/-- Candidate lengths for a greedy quantifier: longest first, never empty. -/
def countdown (n : Nat) : List Nat :=
  (List.range n).map fun k => n - k

/-- The class `[\w\s,&'-]` of the percentage pattern. -/
def ctClass1 (c : Char) : Bool :=
  isWordJS c || isSpaceJS c || c == ',' || c == '&' || c == '\'' || c == '-'

/-- Group 2 `(\d+(?:\.\d+)?)` followed by the literal `%`, matched at `k`.
The greedy digit runs backtrack longest-first; a shortened run leaves a digit
where `.` or `%` is required, so only the maximal takes can succeed, but the
JS preference order is kept as written. -/
def ctNumAt (s : Str) (k : Nat) : Option Str :=
  (countdown (runLen isDigitJS s k)).findSome? fun dd =>
    let q := k + dd
    if charAt s q = some '.' && testAt isDigitJS s (q + 1) then
      (countdown (runLen isDigitJS s (q + 1))).findSome? fun ee =>
        if charAt s (q + 1 + ee) = some '%' then some (slice s k (q + 1 + ee))
        else none
    else if charAt s q = some '%' then some (slice s k q)
    else none

/-- The separator `(?:,|\s+)` followed by group 2 and `%`, at `j`: the comma
alternative is preferred, then the greedy whitespace run longest-first. -/
def ctSepNumAt (s : Str) (j : Nat) : Option Str :=
  match (if charAt s j = some ',' then ctNumAt s (j + 1) else none) with
  | some g2 => some g2
  | none =>
    (countdown (runLen isSpaceJS s j)).findSome? fun ms => ctNumAt s (j + ms)

/-- The whole percentage pattern `/([\w\s,&'-]+)(?:,|\s+)(\d+(?:\.\d+)?)%/`
at start `i`: group 1 greedy longest-first, then separator and number.
Returns (group 1, group 2). -/
def ctPercentMatchAt (s : Str) (i : Nat) : Option (Str × Str) :=
  (countdown (runLen ctClass1 s i)).findSome? fun len1 =>
    (ctSepNumAt s (i + len1)).map fun g2 => (slice s i (i + len1), g2)

/-- Leftmost match of the percentage pattern (JS `line.match(...)`). -/
def ctPercentMatch (s : Str) : Option (Str × Str) :=
  (List.range (s.length + 1)).findSome? fun i => ctPercentMatchAt s i

/-- The class `[\d,]` of the tax-rate pattern. -/
def taxClass (c : Char) : Bool :=
  isDigitJS c || c == ','

/-- The tax-rate pattern `/£([\d,]+(?:\.\d+)?)/` at start `i`: nothing follows
the pattern, so the greedy maximal takes stand. Returns group 1. -/
def taxRateAt (s : Str) (i : Nat) : Option Str :=
  if charAt s i = some '£' then
    let d := runLen taxClass s (i + 1)
    if d = 0 then none
    else
      let q := i + 1 + d
      if charAt s q = some '.' && testAt isDigitJS s (q + 1) then
        some (slice s (i + 1) (q + 1 + runLen isDigitJS s (q + 1)))
      else some (slice s (i + 1) q)
  else none

/-- Leftmost match of the tax-rate pattern. -/
def taxRateMatch (s : Str) : Option Str :=
  (List.range (s.length + 1)).findSome? fun i => taxRateAt s i

/-- The word alternation of the authority-cleanup replace
(`/council|borough|district|county|unitary|metropolitan/gi`); no alternative
is a prefix of another. -/
def authorityWords : List Str :=
  ["council".data, "borough".data, "district".data, "county".data,
   "unitary".data, "metropolitan".data]

/-- Global case-insensitive removal of every occurrence of the listed words. -/
def replaceWordsCI (words : List Str) : Nat → Str → Str
  | 0, s => s
  | _, [] => []
  | fuel + 1, c :: rest =>
    match words.find? fun w => atIndexCI w (c :: rest) 0 with
    | some w => replaceWordsCI words fuel ((c :: rest).drop w.length)
    | none => c :: replaceWordsCI words fuel rest

/-- An extracted council-tax entry (the `CouncilTaxData` interface). -/
structure CouncilTaxData where
  authority : Str
  politicalControl : Str
  taxRate : ℚ
  percentageChange : ℚ
  year : Str
  authorityType : Str
deriving Repr, DecidableEq

/-- The association list standing for the `politicalControlMap` JS `Map`. -/
abbrev ControlMap := List (Str × Str)

/-- JS `Map.get`/`has` for the control map. -/
def ctlGet : ControlMap → Str → Option Str
  | [], _ => none
  | kv :: rest, k => if kv.1 = k then some kv.2 else ctlGet rest k

/-- JS `Map.set` for the control map. -/
def ctlSet : ControlMap → Str → Str → ControlMap
  | [], k, v => [(k, v)]
  | kv :: rest, k, v => if kv.1 = k then (k, v) :: rest else kv :: ctlSet rest k v

/-- The political-control document lookup (lines 63-66). -/
def findPoliticalControlDoc (documents : List Doc) : Option Doc :=
  documents.find? fun doc =>
    hasSubstr (lowerStr doc.title) "political control".data ||
    hasSubstr (lowerStr doc.title) "council control".data

/-- The per-line step of the control-map construction (lines 86-105). -/
def controlMapLine (m : ControlMap) (rawLine : Str) : ControlMap :=
  let line := trimJS rawLine
  if line.isEmpty then m
  else
    match (splitSub line ",".data).map trimJS with
    | authority :: control :: _ =>
      if lowerStr control = "labour".data || lowerStr control = "conservative".data ||
          lowerStr control = "tory".data then
        ctlSet m (lowerStr authority)
          (if lowerStr control = "tory".data then "Conservative".data else control)
      else m
    | _ => m

/-- The control-map construction (lines 60-106): parse the CSV-ish lines of
the political-control document, skipping a header line mentioning
`authority`, keeping only Labour/Conservative/Tory rows. -/
def buildPoliticalControlMap (documents : List Doc) : ControlMap :=
  match findPoliticalControlDoc documents with
  | none => []
  | some doc =>
    let lines := splitSub doc.content "\n".data
    let startIndex := if hasSubstr (lowerStr (lines.headD [])) "authority".data then 1 else 0
    (lines.drop startIndex).foldl controlMapLine []

/-- The control assignment of lines 160-176: exact lowercase lookup first,
then the first map entry related to the authority by substring containment in
either direction, else `Unknown`. -/
def findPoliticalControl (m : ControlMap) (authority : Str) : Str :=
  match ctlGet m (lowerStr authority) with
  | some v => v
  | none =>
    match m.find? (fun kv =>
        hasSubstr (lowerStr authority) kv.1 || hasSubstr kv.1 (lowerStr authority)) with
    | some kv => kv.2
    | none => "Unknown".data

/-- The control assignment exactly as claim C5 words it: first an exact
lowercase-key lookup in the political-control map, and failing that a scan in
which the first map entry whose key is a substring of the lowercased authority
name, or of which the authority name is a substring, supplies the control;
when neither holds the control is `Unknown`. -/
def controlByContainmentSpec (m : ControlMap) (authority : Str) : Str :=
  match ctlGet m (lowerStr authority) with
  | some v => v
  | none =>
    match m.find? (fun kv =>
        hasSubstr (lowerStr authority) kv.1 || hasSubstr kv.1 (lowerStr authority)) with
    | some kv => kv.2
    | none => "Unknown".data

/-- The authority-type heuristics of lines 144-156. -/
def authorityTypeOf (line : Str) : Str :=
  let low := lowerStr line
  if hasSubstr low "london borough".data then "London Borough".data
  else if hasSubstr low "metropolitan".data then "Metropolitan District".data
  else if hasSubstr low "unitary".data then "Unitary Authority".data
  else if hasSubstr low "county".data then "Shire County".data
  else if hasSubstr low "district".data then "Shire District".data
  else "Unknown".data

/-- The per-line extraction of lines 128-190. The `parseFloat` calls cannot
yield `NaN` here (their inputs match `\d+(\.\d+)?` resp. `[\d,]+(\.\d+)?`
stripped of commas), so the `getD 0` defaults are unreachable. -/
def extractCouncilTaxLine (m : ControlMap) (rawLine : Str) : Option CouncilTaxData :=
  let line := trimJS rawLine
  if line.isEmpty then none
  else
    match ctPercentMatch line with
    | none => none
    | some (g1, g2) =>
      let authorityRaw := trimJS g1
      let percentageChange := (parseFloatQ g2).getD 0
      let authority := trimJS (replaceWordsCI authorityWords (authorityRaw.length + 1) authorityRaw)
      let authorityType := authorityTypeOf line
      let politicalControl := findPoliticalControl m authority
      let taxRate : ℚ :=
        match taxRateMatch line with
        | some g => (parseFloatQ (removeChar ',' g)).getD 0
        | none => 0
      some { authority := authority, politicalControl := politicalControl,
             taxRate := taxRate, percentageChange := percentageChange,
             year := "2025-2026".data, authorityType := authorityType }

/-- The aggregate fields computed in lines 193-208 (and verbatim again in the
sample-data fallback, lines 335-350): per-party filters, averages (0 for an
empty party), the absolute difference and the higher party. -/
structure CTStats where
  labourAverage : ℚ
  conservativeAverage : ℚ
  difference : ℚ
  higherParty : Str
  labourCount : Nat
  conservativeCount : Nat
deriving Repr, DecidableEq

/-- The averaging block (lines 193-208). -/
def ctStats (councilTaxData : List CouncilTaxData) : CTStats :=
  let labourCouncils := councilTaxData.filter fun c => c.politicalControl = "Labour".data
  let conservativeCouncils := councilTaxData.filter fun c => c.politicalControl = "Conservative".data
  let labourAverage : ℚ :=
    if labourCouncils.length > 0 then
      (labourCouncils.map (·.percentageChange)).sum / labourCouncils.length
    else 0
  let conservativeAverage : ℚ :=
    if conservativeCouncils.length > 0 then
      (conservativeCouncils.map (·.percentageChange)).sum / conservativeCouncils.length
    else 0
  let difference := labourAverage - conservativeAverage
  { labourAverage := labourAverage, conservativeAverage := conservativeAverage,
    difference := |difference|,
    higherParty := if difference > 0 then "Labour".data else "Conservative".data,
    labourCount := labourCouncils.length,
    conservativeCount := conservativeCouncils.length }

/-- The `debug` payload: the real-data shape of lines 251-257, or the
sample-fallback shape of lines 356-360. -/
inductive CTDebug where
  | real (documentsAnalyzed : Nat) (documentTitles : List Str)
      (politicalControlFound : Bool) (councilTaxDocFound : Bool)
      (totalEntriesExtracted : Nat) : CTDebug
  | sample (realDocumentsAnalyzed : Nat) : CTDebug
deriving Repr, DecidableEq

/-- The result record of `analyzeCouncilTaxData`. -/
structure CTResult where
  labourAverage : ℚ
  conservativeAverage : ℚ
  difference : ℚ
  higherParty : Str
  labourCount : Nat
  conservativeCount : Nat
  councilData : List CouncilTaxData
  debug : Option CTDebug
deriving Repr, DecidableEq

/-- Assembly of a result from the averaging block. -/
def mkCTResult (stats : CTStats) (councilData : List CouncilTaxData)
    (debug : Option CTDebug) : CTResult :=
  { labourAverage := stats.labourAverage,
    conservativeAverage := stats.conservativeAverage,
    difference := stats.difference, higherParty := stats.higherParty,
    labourCount := stats.labourCount, conservativeCount := stats.conservativeCount,
    councilData := councilData, debug := debug }

/-- The council-tax document lookup (lines 109-113). -/
def findCouncilTaxDoc (documents : List Doc) : Option Doc :=
  documents.find? fun doc =>
    hasSubstr (lowerStr doc.title) "council tax".data ||
    hasSubstr (lowerStr doc.title) "tax rate".data ||
    hasSubstr (lowerStr doc.title) "table_8".data

/-- `analyzeCouncilTaxData` (lines 22-262) over the fetched document list. -/
def analyzeCouncilTaxData (documents : List Doc) (debugMode : Bool) : CTResult :=
  let politicalControlMap := buildPoliticalControlMap documents
  let councilTaxDoc := findCouncilTaxDoc documents
  let councilTaxData :=
    match councilTaxDoc with
    | none => []
    | some doc =>
      (splitSub doc.content "\n".data).filterMap (extractCouncilTaxLine politicalControlMap)
  mkCTResult (ctStats councilTaxData) councilTaxData
    (if debugMode then
      some (.real documents.length (documents.map (·.title))
        (findPoliticalControlDoc documents).isSome councilTaxDoc.isSome
        councilTaxData.length)
     else none)

/-- `loadSampleCouncilTaxData` (lines 269-323). -/
def loadSampleCouncilTaxData : List CouncilTaxData :=
  [{ authority := "Manchester".data, politicalControl := "Labour".data,
     taxRate := 1850.25, percentageChange := 4.99, year := "2025-2026".data,
     authorityType := "Metropolitan District".data },
   { authority := "Birmingham".data, politicalControl := "Labour".data,
     taxRate := 1795.80, percentageChange := 4.75, year := "2025-2026".data,
     authorityType := "Metropolitan District".data },
   { authority := "Surrey".data, politicalControl := "Conservative".data,
     taxRate := 2050.40, percentageChange := 3.99, year := "2025-2026".data,
     authorityType := "County".data },
   { authority := "Buckinghamshire".data, politicalControl := "Conservative".data,
     taxRate := 1980.15, percentageChange := 3.50, year := "2025-2026".data,
     authorityType := "County".data },
   { authority := "Oxford".data, politicalControl := "Labour".data,
     taxRate := 1920.30, percentageChange := 4.85, year := "2025-2026".data,
     authorityType := "District".data },
   { authority := "Windsor and Maidenhead".data, politicalControl := "Conservative".data,
     taxRate := 2100.75, percentageChange := 3.75, year := "2025-2026".data,
     authorityType := "Unitary".data }]

/-- `analyzeCouncilTaxDataWithFallback` (lines 328-371): the real analysis
(debug mode on), replaced by the sample data and its verbatim-duplicated
averaging block when no entry was extracted and the fallback is enabled. -/
def analyzeCouncilTaxDataWithFallback (documents : List Doc)
    (useSampleIfEmpty : Bool) : CTResult :=
  let result := analyzeCouncilTaxData documents true
  if result.councilData.isEmpty && useSampleIfEmpty then
    let sampleData := loadSampleCouncilTaxData
    mkCTResult (ctStats sampleData) sampleData
      (some (.sample documents.length))
  else result

/-- The `higherParty` selector against the sign of the average difference. -/
theorem higherParty_iff (lA cA : ℚ) :
    ((if lA - cA > 0 then "Labour".data else "Conservative".data) = "Labour".data ↔
      cA < lA) ∧
    ((if lA - cA > 0 then "Labour".data else "Conservative".data) = "Conservative".data ↔
      ¬ cA < lA) := by
  by_cases h : lA - cA > 0
  · rw [if_pos h]
    exact ⟨iff_of_true rfl (sub_pos.mp h),
      iff_of_false (by decide) (fun hn => hn (sub_pos.mp h))⟩
  · rw [if_neg h]
    exact ⟨iff_of_false (by decide) (fun hlt => h (sub_pos.mpr hlt)),
      iff_of_true rfl (fun hlt => h (sub_pos.mpr hlt))⟩

/-- Relations between the fields the averaging block computes. -/
theorem ctStats_props (data : List CouncilTaxData) :
    0 ≤ (ctStats data).difference ∧
    (ctStats data).difference =
      |(ctStats data).labourAverage - (ctStats data).conservativeAverage| ∧
    ((ctStats data).higherParty = "Labour".data ↔
      (ctStats data).conservativeAverage < (ctStats data).labourAverage) ∧
    ((ctStats data).higherParty = "Conservative".data ↔
      ¬((ctStats data).conservativeAverage < (ctStats data).labourAverage)) := by
  simp only [ctStats]
  exact ⟨abs_nonneg _, by trivial, (higherParty_iff _ _).1, (higherParty_iff _ _).2⟩

/-- The same relations, transported to an assembled result record. -/
theorem mkCTResult_props (data cd : List CouncilTaxData) (dbg : Option CTDebug) :
    0 ≤ (mkCTResult (ctStats data) cd dbg).difference ∧
    (mkCTResult (ctStats data) cd dbg).difference =
      |(mkCTResult (ctStats data) cd dbg).labourAverage -
        (mkCTResult (ctStats data) cd dbg).conservativeAverage| ∧
    ((mkCTResult (ctStats data) cd dbg).higherParty = "Labour".data ↔
      (mkCTResult (ctStats data) cd dbg).conservativeAverage <
        (mkCTResult (ctStats data) cd dbg).labourAverage) ∧
    ((mkCTResult (ctStats data) cd dbg).higherParty = "Conservative".data ↔
      ¬((mkCTResult (ctStats data) cd dbg).conservativeAverage <
        (mkCTResult (ctStats data) cd dbg).labourAverage)) := by
  simpa [mkCTResult] using ctStats_props data

/-- C8: for every document list, the results of `analyzeCouncilTaxData` and
of `analyzeCouncilTaxDataWithFallback` have a non-negative `difference` equal
to `|labourAverage - conservativeAverage|`, and `higherParty` is `Labour`
exactly when the Labour average strictly exceeds the Conservative average —
on a tie (including the both-zero no-data case) it is `Conservative`. -/
theorem councilTax_difference_higherParty (documents : List Doc)
    (debugMode useSampleIfEmpty : Bool) :
    (0 ≤ (analyzeCouncilTaxData documents debugMode).difference ∧
     (analyzeCouncilTaxData documents debugMode).difference =
       |(analyzeCouncilTaxData documents debugMode).labourAverage -
         (analyzeCouncilTaxData documents debugMode).conservativeAverage| ∧
     ((analyzeCouncilTaxData documents debugMode).higherParty = "Labour".data ↔
       (analyzeCouncilTaxData documents debugMode).conservativeAverage <
         (analyzeCouncilTaxData documents debugMode).labourAverage) ∧
     ((analyzeCouncilTaxData documents debugMode).higherParty = "Conservative".data ↔
       ¬((analyzeCouncilTaxData documents debugMode).conservativeAverage <
         (analyzeCouncilTaxData documents debugMode).labourAverage))) ∧
    (0 ≤ (analyzeCouncilTaxDataWithFallback documents useSampleIfEmpty).difference ∧
     (analyzeCouncilTaxDataWithFallback documents useSampleIfEmpty).difference =
       |(analyzeCouncilTaxDataWithFallback documents useSampleIfEmpty).labourAverage -
         (analyzeCouncilTaxDataWithFallback documents useSampleIfEmpty).conservativeAverage| ∧
     ((analyzeCouncilTaxDataWithFallback documents useSampleIfEmpty).higherParty = "Labour".data ↔
       (analyzeCouncilTaxDataWithFallback documents useSampleIfEmpty).conservativeAverage <
         (analyzeCouncilTaxDataWithFallback documents useSampleIfEmpty).labourAverage) ∧
     ((analyzeCouncilTaxDataWithFallback documents useSampleIfEmpty).higherParty = "Conservative".data ↔
       ¬((analyzeCouncilTaxDataWithFallback documents useSampleIfEmpty).conservativeAverage <
         (analyzeCouncilTaxDataWithFallback documents useSampleIfEmpty).labourAverage))) := by
  constructor
  · simp only [analyzeCouncilTaxData]
    exact mkCTResult_props _ _ _
  · rw [analyzeCouncilTaxDataWithFallback]
    split
    · exact mkCTResult_props _ _ _
    · simp only [analyzeCouncilTaxData]
      exact mkCTResult_props _ _ _

/-- The two formulations of the control lookup coincide definitionally. -/
theorem findPoliticalControl_eq_spec (m : ControlMap) (a : Str) :
    findPoliticalControl m a = controlByContainmentSpec m a :=
  rfl

/-- Every entry the line extractor produces carries the control the lookup
assigns to its own (cleaned) authority name. -/
theorem extractCouncilTaxLine_control (m : ControlMap) (l : Str)
    (e : CouncilTaxData) (hf : extractCouncilTaxLine m l = some e) :
    e.politicalControl = findPoliticalControl m e.authority := by
  simp only [extractCouncilTaxLine] at hf
  split at hf
  · exact absurd hf (by simp)
  · split at hf
    · exact absurd hf (by simp)
    · injection hf with h
      subst h
      rfl

/-- C5: in `analyzeCouncilTaxData`, the political control of every extracted
entry is determined purely by string containment against the political-control
map: an exact lowercase-key lookup, then the first map entry whose key is a
substring of the lowercased authority name or of which the authority name is
a substring, else `Unknown`. -/
theorem analyzeCouncilTaxData_control_containment (documents : List Doc)
    (debugMode : Bool) :
    ∀ e ∈ (analyzeCouncilTaxData documents debugMode).councilData,
      e.politicalControl =
        controlByContainmentSpec (buildPoliticalControlMap documents) e.authority := by
  intro e he
  simp only [analyzeCouncilTaxData, mkCTResult] at he
  rcases hdoc : findCouncilTaxDoc documents with _ | doc
  · rw [hdoc] at he
    exact absurd he (by simp)
  · rw [hdoc] at he
    obtain ⟨line, _, hf⟩ := List.mem_filterMap.mp he
    rw [← findPoliticalControl_eq_spec]
    exact extractCouncilTaxLine_control _ _ _ hf

/-- The default head of a non-empty list is a member. -/
theorem headD_mem_of_ne_nil {α : Type} (l : List α) (d : α) (h : l ≠ []) :
    l.headD d ∈ l := by
  cases l with
  | nil => exact absurd rfl h
  | cons a t => simp [List.headD]

/-- Witness for C5 at a concrete input: a one-line council-tax document whose
single extracted entry (`Westminster,` with a 3.5% change) gets its control
from the empty map, hence `Unknown`. -/
theorem analyzeCouncilTaxData_control_containment_witness :
    ((analyzeCouncilTaxData
        [⟨"1".data, "Council Tax".data, "Westminster, 3.5%".data⟩] false).councilData.headD
      { authority := [], politicalControl := [], taxRate := 0,
        percentageChange := 0, year := [], authorityType := [] }) ∈
      (analyzeCouncilTaxData
        [⟨"1".data, "Council Tax".data, "Westminster, 3.5%".data⟩] false).councilData ∧
    ((analyzeCouncilTaxData
        [⟨"1".data, "Council Tax".data, "Westminster, 3.5%".data⟩] false).councilData.headD
      { authority := [], politicalControl := [], taxRate := 0,
        percentageChange := 0, year := [], authorityType := [] }).politicalControl =
      controlByContainmentSpec
        (buildPoliticalControlMap
          [⟨"1".data, "Council Tax".data, "Westminster, 3.5%".data⟩])
        ((analyzeCouncilTaxData
            [⟨"1".data, "Council Tax".data, "Westminster, 3.5%".data⟩] false).councilData.headD
          { authority := [], politicalControl := [], taxRate := 0,
            percentageChange := 0, year := [], authorityType := [] }).authority :=
  have hmem := headD_mem_of_ne_nil
    (analyzeCouncilTaxData
      [⟨"1".data, "Council Tax".data, "Westminster, 3.5%".data⟩] false).councilData
    { authority := [], politicalControl := [], taxRate := 0,
      percentageChange := 0, year := [], authorityType := [] }
    (by decide)
  ⟨hmem,
   analyzeCouncilTaxData_control_containment
     [⟨"1".data, "Council Tax".data, "Westminster, 3.5%".data⟩] false _ hmem⟩

/-!
`generateMarkdownTable` (`analysisEngine.ts` lines 211-240). The cells are the
strings JS `String(cell)` yields; the alignment parameter is the literal union
type `'left' | 'center' | 'right'` (the final `else ' --- |'` branch of the
source is unreachable under that typing). -/

/-- The alignment union type of the source. -/
inductive Align where
  | left : Align
  | center : Align
  | right : Align
deriving Repr, DecidableEq

/-- The per-column piece of the alignment row (lines 224-229). -/
def alignCell : Align → Str
  | .left => " :--- |".data
  | .center => " :---: |".data
  | .right => " ---: |".data

/-- `generateMarkdownTable` (lines 213-240): empty for no rows, else a header
row, an alignment row (`alignments[i] || 'left'`) and one row per data row,
each line terminated by a newline. -/
def generateMarkdownTable (headers : List Str) (rows : List (List Str))
    (alignments : List Align) : Str :=
  if rows.isEmpty then []
  else
    let headerRow := "| ".data ++ joinSep " | ".data headers ++ " |\n".data
    let alignRow := "|".data ++
      ((List.range headers.length).map fun i => alignCell (alignments.getD i .left)).flatten ++
      "\n".data
    let dataRows :=
      (rows.map fun row => "| ".data ++ joinSep " | ".data row ++ " |\n".data).flatten
    headerRow ++ alignRow ++ dataRows

/-- A character outside the separator and all the pieces is not in the join. -/
theorem not_mem_joinSep (c : Char) (sep : Str) (hsep : c ∉ sep) :
    ∀ l : List Str, (∀ x ∈ l, c ∉ x) → c ∉ joinSep sep l
  | [], _ => by simp [joinSep]
  | [x], h => by simpa [joinSep] using h x (by simp)
  | x :: y :: rest, h => by
    simp only [joinSep, List.append_assoc, List.mem_append]
    push_neg
    exact ⟨h x (by simp), hsep,
      not_mem_joinSep c sep hsep (y :: rest) (fun z hz => h z (by simp [hz]))⟩

/-- Flattening lists that each hold one occurrence of `c` yields as many
occurrences as there are lists. -/
theorem count_flatten_ones (c : Char) :
    ∀ L : List Str, (∀ x ∈ L, x.count c = 1) → L.flatten.count c = L.length
  | [], _ => by simp
  | x :: rest, h => by
    simp only [List.flatten_cons, List.count_append, h x (by simp),
      count_flatten_ones c rest (fun z hz => h z (by simp [hz])), List.length_cons]
    omega

/-- A flattening of non-empty newline-terminated pieces is newline-terminated. -/
theorem getLast?_flatten_newline :
    ∀ L : List Str, L ≠ [] → (∀ x ∈ L, x.getLast? = some '\n') →
      L.flatten.getLast? = some '\n'
  | [], h, _ => absurd rfl h
  | x :: rest, _, h => by
    cases hr : rest with
    | nil =>
      simp only [List.flatten_cons, hr, List.flatten_nil, List.append_nil]
      exact h x (by simp)
    | cons y t =>
      have hrec : rest.flatten.getLast? = some '\n' :=
        getLast?_flatten_newline rest (by simp [hr])
          (fun z hz => h z (by simp [hz]))
      have hne : rest.flatten ≠ [] := by
        intro hnil
        rw [hnil] at hrec
        simp at hrec
      rw [hr] at hrec hne
      simp only [List.flatten_cons] at hrec hne
      simp only [List.flatten_cons, hr]
      rw [List.getLast?_append_of_ne_nil _ hne]
      exact hrec

/-- No alignment cell contains a newline. -/
theorem alignCell_no_newline (a : Align) : '\n' ∉ alignCell a := by
  cases a <;> decide

/-- C10 counterexample to the claim as stated: with a data cell containing a
newline, the table for one header and one row consists of four
newline-terminated lines, not `2 + rows.length = 3`. -/
theorem generateMarkdownTable_newline_cell :
    (generateMarkdownTable ["h".data] [["a\nb".data]] []).count '\n' = 4 ∧
    ¬ (generateMarkdownTable ["h".data] [["a\nb".data]] []).count '\n' = 2 + 1 := by
  decide

/-- C10 (amended): `generateMarkdownTable` returns the empty string exactly
when `rows` is empty, and — provided no header and no cell contains a newline
character — a non-empty `rows` yields exactly `2 + rows.length`
newline-terminated lines (that many newlines, the last character being one). -/
theorem generateMarkdownTable_lines (headers : List Str) (rows : List (List Str))
    (alignments : List Align)
    (hh : ∀ h ∈ headers, '\n' ∉ h)
    (hc : ∀ row ∈ rows, ∀ cell ∈ row, '\n' ∉ cell) :
    (generateMarkdownTable headers rows alignments = [] ↔ rows = []) ∧
    (rows ≠ [] →
      (generateMarkdownTable headers rows alignments).count '\n' = 2 + rows.length ∧
      (generateMarkdownTable headers rows alignments).getLast? = some '\n') := by
  constructor
  · constructor
    · intro hempty
      by_contra hne
      rw [generateMarkdownTable, if_neg (by simpa using hne)] at hempty
      simp at hempty
    · intro h
      simp [generateMarkdownTable, h]
  · intro hne
    have hneb : ¬ rows.isEmpty := by simpa using hne
    have hrowstr : ∀ s ∈ rows.map (fun row =>
        "| ".data ++ joinSep " | ".data row ++ " |\n".data), s.count '\n' = 1 := by
      intro s hs
      obtain ⟨row, hrow, rfl⟩ := List.mem_map.mp hs
      have hj : '\n' ∉ joinSep " | ".data row :=
        not_mem_joinSep _ _ (by decide) row (hc row hrow)
      simp [List.count_append, List.count_eq_zero.mpr hj]
    have hrowlast : ∀ s ∈ rows.map (fun row =>
        "| ".data ++ joinSep " | ".data row ++ " |\n".data),
        s.getLast? = some '\n' := by
      intro s hs
      obtain ⟨row, _, rfl⟩ := List.mem_map.mp hs
      rw [List.getLast?_append_of_ne_nil _ (by decide)]
      decide
    constructor
    · rw [generateMarkdownTable, if_neg hneb]
      have hjh : '\n' ∉ joinSep " | ".data headers :=
        not_mem_joinSep _ _ (by decide) headers hh
      have hfl : '\n' ∉ ((List.range headers.length).map fun i =>
          alignCell (alignments.getD i .left)).flatten := by
        intro hmem
        obtain ⟨l, hl, hcl⟩ := List.mem_flatten.mp hmem
        obtain ⟨i, _, rfl⟩ := List.mem_map.mp hl
        exact alignCell_no_newline _ hcl
      simp only [List.count_append, List.count_eq_zero.mpr hjh,
        List.count_eq_zero.mpr hfl,
        count_flatten_ones '\n' _ hrowstr, List.length_map]
      have c1 : List.count '\n' ['|', ' '] = 0 := by decide
      have c2 : List.count '\n' [' ', '|', '\n'] = 1 := by decide
      have c3 : List.count '\n' ['|'] = 0 := by decide
      have c4 : List.count '\n' ['\n'] = 1 := by decide
      rw [c1, c2, c3, c4]
    · rw [generateMarkdownTable, if_neg hneb]
      have hflat : (rows.map fun row =>
          "| ".data ++ joinSep " | ".data row ++ " |\n".data).flatten.getLast? =
          some '\n' :=
        getLast?_flatten_newline _ (by simpa using hne) hrowlast
      have hfne : (rows.map fun row =>
          "| ".data ++ joinSep " | ".data row ++ " |\n".data).flatten ≠ [] := by
        intro hnil
        rw [hnil] at hflat
        simp at hflat
      rw [List.getLast?_append_of_ne_nil _ hfne]
      exact hflat

/-- Witness for C10 at a concrete input. -/
theorem generateMarkdownTable_lines_witness :
    (∀ h ∈ ["H".data], '\n' ∉ h) ∧
    (∀ row ∈ [["a".data, "b".data]], ∀ cell ∈ row, '\n' ∉ cell) ∧
    ((["a".data, "b".data] : List Str) :: [] ≠ [] →
      (generateMarkdownTable ["H".data] [["a".data, "b".data]] [Align.center]).count '\n' =
        2 + 1 ∧
      (generateMarkdownTable ["H".data] [["a".data, "b".data]] [Align.center]).getLast? =
        some '\n') :=
  ⟨by decide, by decide,
   (generateMarkdownTable_lines ["H".data] [["a".data, "b".data]] [Align.center]
     (by decide) (by decide)).2⟩

/-!
The HTTP handlers of `app/api/search/route.ts`, `app/api/documents/route.ts`
and the multi-document RAG route. Each handler is a pure function of its
request parameters and of the outcome (`Except`) of the awaited processing it
wraps; `NextResponse.json(x)` is a status code plus a JSON value.
-/

/-- A JSON value as the handlers build them. -/
inductive JVal where
  | str (s : Str) : JVal
  | num (n : Int) : JVal
  | bool (b : Bool) : JVal
  | null : JVal
  | arr (xs : List JVal) : JVal
  | obj (fields : List (Str × JVal)) : JVal

/-- Whether a JSON payload carries an `error` field. -/
def hasErrorField : JVal → Bool
  | .obj fields => fields.any fun kv => kv.1 = "error".data
  | _ => false

/-- An HTTP response: status code and JSON body. -/
structure HttpResponse where
  status : Nat
  body : JVal

/-- `GET /api/search` (search route lines 4-31): missing query is a 400,
a successful search a 200 `results` payload, a thrown error a 500 with
`error.message || '...'`. -/
def searchGET (query : Option Str) (run : Except Str JVal) : HttpResponse :=
  match query with
  | none => ⟨400, .obj [("error".data, .str "Query parameter is required".data)]⟩
  | some _ =>
    match run with
    | .ok results => ⟨200, .obj [("results".data, results)]⟩
    | .error e =>
      ⟨500, .obj [("error".data,
        .str (if e.isEmpty then "An error occurred during semantic search".data else e))]⟩

/-- `POST /api/search` (search route lines 33-63). -/
def searchPOST (action : Option Str) (run : Except Str Nat) : HttpResponse :=
  match action with
  | some a =>
    if a = "process_all".data then
      match run with
      | .ok processedCount =>
        ⟨200, .obj [("success".data, .bool true),
          ("message".data, .str ("Successfully processed ".data ++
            (Nat.repr processedCount).data ++ " documents for vector search".data)),
          ("processedCount".data, .num processedCount)]⟩
      | .error e =>
        ⟨500, .obj [("error".data,
          .str (if e.isEmpty then "An error occurred during search operation".data else e))]⟩
    else ⟨400, .obj [("error".data,
      .str "Invalid action. Supported actions: process_all".data)]⟩
  | none => ⟨400, .obj [("error".data,
      .str "Invalid action. Supported actions: process_all".data)]⟩

/-- `POST /api/documents` (documents route lines 9-107): upload processing
reduced to its outcome; the catch returns a fixed 500 payload. -/
def documentsPOST (file : Option Str) (run : Except Str JVal) : HttpResponse :=
  match file with
  | none => ⟨400, .obj [("error".data, .str "No file provided".data)]⟩
  | some _ =>
    match run with
    | .ok document => ⟨200, .obj [("document".data, document)]⟩
    | .error _ =>
      ⟨500, .obj [("error".data, .str "Failed to process document".data)]⟩

/-- A chat row of the Prisma schema. -/
structure ChatRow where
  id : Str
  documentId : Str
deriving Repr, DecidableEq

/-- A message row of the Prisma schema. -/
structure MsgRow where
  id : Str
  chatId : Str
  role : Str
  content : Str
deriving Repr, DecidableEq

/-- A chunk row of the Prisma schema (`onDelete: Cascade` towards its
document). -/
structure ChunkRow where
  id : Str
  documentId : Str
deriving Repr, DecidableEq

/-- The relational store the documents route mutates. -/
structure Store where
  documents : List Doc
  chats : List ChatRow
  messages : List MsgRow
  chunks : List ChunkRow
deriving Repr, DecidableEq

/-- `DELETE /api/documents` (documents route lines 109-159): look the document
up (404 when absent), delete the messages of each of its chats, its chats,
then the document itself (the schema cascades its chunks). -/
def documentsDELETE (idParam : Option Str) (store : Store) : HttpResponse × Store :=
  match idParam with
  | none => (⟨400, .obj [("error".data, .str "Document ID is required".data)]⟩, store)
  | some id =>
    match store.documents.find? fun d => d.id = id with
    | none => (⟨404, .obj [("error".data, .str "Document not found".data)]⟩, store)
    | some _ =>
      let docChats := store.chats.filter fun c => c.documentId = id
      let store₁ :=
        if docChats.isEmpty then store
        else
          { store with
            messages := docChats.foldl
              (fun ms c => ms.filter fun m => ¬ m.chatId = c.id) store.messages,
            chats := store.chats.filter fun c => ¬ c.documentId = id }
      let store₂ := { store₁ with
        documents := store₁.documents.filter fun d => ¬ d.id = id,
        chunks := store₁.chunks.filter fun c => ¬ c.documentId = id }
      (⟨200, .obj [("success".data, .bool true),
        ("message".data, .str "Document deleted successfully".data)]⟩, store₂)

/-- The council-tax keyword list of the RAG route. -/
def ragRouteKeywords : List Str :=
  ["council tax".data, "tax increase".data, "tax rate".data,
   "local authority".data, "political control".data, "labour council".data,
   "conservative council".data, "lib dem council".data,
   "raise council tax".data, "council tax comparison".data,
   "average council tax".data]

/-- `isCouncilTaxQuery` of the RAG route. -/
def isCouncilTaxQuery (query : Str) : Bool :=
  ragRouteKeywords.any fun keyword => hasSubstr (lowerStr query) (lowerStr keyword)

/-- The RAG route's `POST` handler: optional analysis whose errors are logged
and ignored, then `multiDocumentRAG`, whose outcome decides between a 200
success payload and a 500 error payload. -/
def ragPOST (query : Option Str) (performAnalysis : Bool)
    (analysisRun : Except Str JVal) (ragRun : Except Str Str) : HttpResponse :=
  match query with
  | none => ⟨400, .obj [("error".data, .str "Query parameter is required".data)]⟩
  | some q =>
    let shouldAnalyze := performAnalysis || isCouncilTaxQuery q
    let analysisResults : JVal :=
      if shouldAnalyze then
        match analysisRun with
        | .ok v => v
        | .error _ => .null
      else .null
    match ragRun with
    | .ok response =>
      ⟨200, .obj [("response".data, .str response),
        ("analysisResults".data, analysisResults),
        ("success".data, .bool true)]⟩
    | .error e =>
      ⟨500, .obj [("error".data,
        .str (if e.isEmpty then "An error occurred during multi-document RAG".data else e))]⟩

/-- Surviving the per-chat message deletion loop means belonging to none of
the listed chats. -/
theorem mem_foldl_filter_messages (chats : List ChatRow) :
    ∀ (msgs : List MsgRow) (m : MsgRow),
      (m ∈ chats.foldl (fun ms c => ms.filter fun x => ¬ x.chatId = c.id) msgs ↔
        m ∈ msgs ∧ ∀ c ∈ chats, m.chatId ≠ c.id) := by
  induction chats with
  | nil => intro msgs m; simp
  | cons c cs ih =>
    intro msgs m
    rw [List.foldl_cons, ih]
    simp only [List.mem_filter, decide_eq_true_eq, List.mem_cons]
    constructor
    · rintro ⟨⟨hm, hc⟩, hcs⟩
      refine ⟨hm, fun c' hc' => ?_⟩
      rcases hc' with rfl | hc'
      · exact hc
      · exact hcs c' hc'
    · rintro ⟨hm, hall⟩
      exact ⟨⟨hm, hall c (Or.inl rfl)⟩, fun c' hc' => hall c' (Or.inr hc')⟩

/-- C7: a successful `DELETE` removes the target document, its chats and
their messages and leaves every other document, chat and message unchanged;
a `DELETE` for an unknown id is a 404 error leaving the store unchanged. -/
theorem documentsDELETE_spec (store : Store) (id : Str) :
    (∀ d, store.documents.find? (fun x => x.id = id) = some d →
      (documentsDELETE (some id) store).1.status = 200 ∧
      (∀ doc, doc ∈ (documentsDELETE (some id) store).2.documents ↔
        doc ∈ store.documents ∧ doc.id ≠ id) ∧
      (∀ c, c ∈ (documentsDELETE (some id) store).2.chats ↔
        c ∈ store.chats ∧ c.documentId ≠ id) ∧
      (∀ m, m ∈ (documentsDELETE (some id) store).2.messages ↔
        m ∈ store.messages ∧
          ∀ c ∈ store.chats, c.documentId = id → m.chatId ≠ c.id)) ∧
    (store.documents.find? (fun x => x.id = id) = none →
      documentsDELETE (some id) store =
        (⟨404, .obj [("error".data, .str "Document not found".data)]⟩, store)) := by
  constructor
  · intro d hd
    simp only [documentsDELETE, hd]
    by_cases hdc : (store.chats.filter fun c => c.documentId = id).isEmpty
    · have hforall : ∀ c ∈ store.chats, ¬ c.documentId = id := by
        intro c hc hcid
        have : c ∈ store.chats.filter fun c => c.documentId = id :=
          List.mem_filter.mpr ⟨hc, by simpa using hcid⟩
        rw [List.isEmpty_iff.mp hdc] at this
        simp at this
      refine ⟨by simp [hdc], ?_, ?_, ?_⟩
      · intro doc
        simp [hdc, List.mem_filter]
      · intro c
        simp only [hdc, if_true]
        exact ⟨fun hc => ⟨hc, fun hcid => hforall c hc (by simpa using hcid)⟩,
          fun hc => hc.1⟩
      · intro m
        simp only [hdc, if_true]
        exact ⟨fun hm => ⟨hm, fun c hc hcid => absurd hcid (hforall c hc)⟩,
          fun hm => hm.1⟩
    · refine ⟨by simp [hdc], ?_, ?_, ?_⟩
      · intro doc
        simp [hdc, List.mem_filter]
      · intro c
        simp [hdc, List.mem_filter]
      · intro m
        simp only [hdc, Bool.false_eq_true, if_false]
        rw [mem_foldl_filter_messages]
        constructor
        · rintro ⟨hm, hall⟩
          exact ⟨hm, fun c hc hcid =>
            hall c (List.mem_filter.mpr ⟨hc, by simpa using hcid⟩)⟩
        · rintro ⟨hm, hall⟩
          refine ⟨hm, fun c hc => ?_⟩
          obtain ⟨hc', hcid⟩ := List.mem_filter.mp hc
          exact hall c hc' (by simpa using hcid)
  · intro h
    simp [documentsDELETE, h]

/-- Witness for C7 at a concrete two-document store. -/
theorem documentsDELETE_spec_witness :
    (documentsDELETE (some "d1".data)
      ⟨[⟨"d1".data, "T1".data, "C1".data⟩, ⟨"d2".data, "T2".data, "C2".data⟩],
       [⟨"c1".data, "d1".data⟩, ⟨"c2".data, "d2".data⟩],
       [⟨"m1".data, "c1".data, "user".data, "x".data⟩,
        ⟨"m2".data, "c2".data, "user".data, "y".data⟩], []⟩).1.status = 200 ∧
    (∀ doc, doc ∈ (documentsDELETE (some "d1".data)
      ⟨[⟨"d1".data, "T1".data, "C1".data⟩, ⟨"d2".data, "T2".data, "C2".data⟩],
       [⟨"c1".data, "d1".data⟩, ⟨"c2".data, "d2".data⟩],
       [⟨"m1".data, "c1".data, "user".data, "x".data⟩,
        ⟨"m2".data, "c2".data, "user".data, "y".data⟩], []⟩).2.documents ↔
      doc ∈ [(⟨"d1".data, "T1".data, "C1".data⟩ : Doc),
             ⟨"d2".data, "T2".data, "C2".data⟩] ∧ doc.id ≠ "d1".data) ∧
    (∀ c, c ∈ (documentsDELETE (some "d1".data)
      ⟨[⟨"d1".data, "T1".data, "C1".data⟩, ⟨"d2".data, "T2".data, "C2".data⟩],
       [⟨"c1".data, "d1".data⟩, ⟨"c2".data, "d2".data⟩],
       [⟨"m1".data, "c1".data, "user".data, "x".data⟩,
        ⟨"m2".data, "c2".data, "user".data, "y".data⟩], []⟩).2.chats ↔
      c ∈ [(⟨"c1".data, "d1".data⟩ : ChatRow), ⟨"c2".data, "d2".data⟩] ∧
        c.documentId ≠ "d1".data) ∧
    (∀ m, m ∈ (documentsDELETE (some "d1".data)
      ⟨[⟨"d1".data, "T1".data, "C1".data⟩, ⟨"d2".data, "T2".data, "C2".data⟩],
       [⟨"c1".data, "d1".data⟩, ⟨"c2".data, "d2".data⟩],
       [⟨"m1".data, "c1".data, "user".data, "x".data⟩,
        ⟨"m2".data, "c2".data, "user".data, "y".data⟩], []⟩).2.messages ↔
      m ∈ [(⟨"m1".data, "c1".data, "user".data, "x".data⟩ : MsgRow),
           ⟨"m2".data, "c2".data, "user".data, "y".data⟩] ∧
        ∀ c ∈ [(⟨"c1".data, "d1".data⟩ : ChatRow), ⟨"c2".data, "d2".data⟩],
          c.documentId = "d1".data → m.chatId ≠ c.id) :=
  (documentsDELETE_spec
    ⟨[⟨"d1".data, "T1".data, "C1".data⟩, ⟨"d2".data, "T2".data, "C2".data⟩],
     [⟨"c1".data, "d1".data⟩, ⟨"c2".data, "d2".data⟩],
     [⟨"m1".data, "c1".data, "user".data, "x".data⟩,
      ⟨"m2".data, "c2".data, "user".data, "y".data⟩], []⟩ "d1".data).1
    ⟨"d1".data, "T1".data, "C1".data⟩ (by decide)

/-- C4 (amended): each modelled handler converts an error outcome of its
wrapped processing into a JSON payload with an `error` field under HTTP
status 500; the exception is the RAG endpoint when `multiDocumentRAG` itself
swallows a `429` error (see the counterexample theorem). -/
theorem httpHandlers_error_payloads (e : Str) (query file : Str) :
    ((searchGET (some query) (.error e)).status = 500 ∧
      hasErrorField (searchGET (some query) (.error e)).body = true) ∧
    ((searchPOST (some "process_all".data) (.error e)).status = 500 ∧
      hasErrorField (searchPOST (some "process_all".data) (.error e)).body = true) ∧
    ((documentsPOST (some file) (.error e)).status = 500 ∧
      hasErrorField (documentsPOST (some file) (.error e)).body = true) ∧
    (∀ performAnalysis aRun,
      (ragPOST (some query) performAnalysis aRun (.error e)).status = 500 ∧
      hasErrorField (ragPOST (some query) performAnalysis aRun (.error e)).body = true) := by
  refine ⟨⟨rfl, by simp [searchGET, hasErrorField]⟩,
    ⟨by simp [searchPOST], by simp [searchPOST, hasErrorField]⟩,
    ⟨rfl, by simp [documentsPOST, hasErrorField]⟩,
    fun performAnalysis aRun => ⟨rfl, by simp [ragPOST, hasErrorField]⟩⟩

set_option maxRecDepth 40000 in
/-- C4 counterexample to the claim as stated: a completion error containing
`429` thrown during multi-document RAG processing surfaces to the client as an
HTTP 200 success payload with no `error` field (the apology text as the
response), not as a 4xx/5xx error. -/
theorem ragPOST_429_surfaces_as_success :
    (multiDocumentRAG (fun _ => []) (fun _ => [])
        (fun _ _ => .error "status 429".data) none (fun _ => ⟨[], []⟩)
        [] [] "hi".data 10).1 = .ok apologyMessage ∧
    (ragPOST (some "hi".data) false (.ok .null)
        (multiDocumentRAG (fun _ => []) (fun _ => [])
          (fun _ _ => .error "status 429".data) none (fun _ => ⟨[], []⟩)
          [] [] "hi".data 10).1).status = 200 ∧
    hasErrorField (ragPOST (some "hi".data) false (.ok .null)
        (multiDocumentRAG (fun _ => []) (fun _ => [])
          (fun _ _ => .error "status 429".data) none (fun _ => ⟨[], []⟩)
          [] [] "hi".data 10).1).body = false := by
  refine ⟨rfl, rfl, rfl⟩

end BlueEdge
